import Mathlib

/-!
Verification development for the Exata-Falada PDF-to-accessible-HTML pipeline.

The definitions below are a shallow embedding of `processing.py` (the web
pipeline: `parse_page_ranges`, `gemini_api_call_with_retry`,
`_upload_single_image_task`, `upload_to_gemini_file_api`,
`generate_html_for_image_task` result handling, `create_merged_html_with_accessibility`,
`process_pdf_web`) and of the desktop variant (`process_pdf_thread` in the
unnamed desktop module, which carries the defensive order-index check and the
partial-output renaming).  External effects (the Gemini remote API, the file
system, the clock and the cancellation flag) are modelled by explicit
environment records; threads completing out of order are modelled by
quantifying over reorderings of each round's task queue.
-/

namespace EF

/-! ## Constants (processing.py, module header) -/

def DEFAULT_GEMINI_MODEL : String := "gemini-2.0-flash"

def AVAILABLE_GEMINI_MODELS : List String :=
  ["gemini-1.5-flash", "gemini-2.0-flash", "gemini-2.0-flash-lite",
   "gemini-2.5-flash-preview-05-20", "gemini-1.5-flash-8b", "gemini-2.5-pro-preview-06-05"]

def MODELO_ESCALONAMENTO : String := "gemini-2.5-flash-preview-05-20"

def LIMITE_TOKENS_ESCALONAMENTO : Nat := 65536

def FINISH_REASON_MAX_TOKENS : String := "MAX_TOKENS"

def MAX_RETRIES_PER_CALL : Nat := 3

/-- Initial per-call backoff, in seconds. -/
def INITIAL_BACKOFF : Nat := 1

/-- Per-call backoff cap, in seconds. -/
def MAX_BACKOFF : Nat := 4

def PHASE_MAX_RETRIES : Nat := 1

/-! ## Python string and int helpers used by `parse_page_ranges` -/

/-- Characters stripped by Python `str.strip()`. -/
def pyWhitespace (c : Char) : Bool :=
  c = ' ' || c = '\t' || c = '\n' || c = '\r' || c = '\x0b' || c = '\x0c'

def pyStripList (l : List Char) : List Char :=
  ((l.dropWhile pyWhitespace).reverse.dropWhile pyWhitespace).reverse

def pyStrip (s : String) : String :=
  String.mk (pyStripList s.toList)

def isDigitCh (c : Char) : Bool := '0' ≤ c && c ≤ '9'

def digitVal (c : Char) : Nat := c.toNat - 48

def digitsVal (l : List Char) : Nat := l.foldl (fun a c => 10 * a + digitVal c) 0

/-- Value of a nonempty all-digit character run, else `none`. -/
def pyIntDigits (l : List Char) : Option Int :=
  if l ≠ [] ∧ l.all isDigitCh then some (digitsVal l) else none

/-- Python `int(s)`: optional sign after stripping, then decimal digits.
    (Underscore digit separators are not modelled; no claim depends on them.) -/
def pyInt (s : String) : Option Int :=
  match pyStripList s.toList with
  | [] => none
  | c :: rest =>
    if c = '-' then (pyIntDigits rest).map (fun n => -n)
    else if c = '+' then pyIntDigits rest
    else pyIntDigits (c :: rest)

/-- Python `part.split(Char.ofNat 45, 1)`: characters before the first dash,
    and the characters after it. -/
def splitDash : List Char → List Char × List Char
  | [] => ([], [])
  | c :: r =>
    if c = '-' then ([], r)
    else
      let p := splitDash r
      (c :: p.1, p.2)

/-- Python `set.add`. -/
def setAdd (x : Nat) (acc : List Nat) : List Nat :=
  if x ∈ acc then acc else x :: acc

/-- Python `set.update(range(s, e + 1))`. -/
def setAddRange (s e : Nat) (acc : List Nat) : List Nat :=
  (List.range' s (e + 1 - s)).foldl (fun a x => setAdd x a) acc

/-- Python `page_range_str.split(Char.ofNat 44)` on the character list. -/
def splitOnComma : List Char → List (List Char)
  | [] => [[]]
  | c :: r =>
    match splitOnComma r with
    | [] => [[]]
    | h :: t => if c = ',' then [] :: h :: t else (c :: h) :: t

/-! ## parse_page_ranges (processing.py lines 49-77) -/

/-- One nonempty stripped token of the range string: either `A-B` / `A-`
    (dash branch) or a single 1-based integer. Returns `none` exactly when
    Python returns `None` for this token (parse failure, reversed range or
    out-of-bounds value). -/
def tokenUpdate (total_pages : Nat) (acc : List Nat) (tok : List Char) : Option (List Nat) :=
  if tok.contains '-' then
    match pyInt (String.mk (splitDash tok).1) with
    | none => none
    | some sv =>
      match (if (splitDash tok).2 = [] then some ((total_pages : Int) - 1)
             else (pyInt (String.mk (splitDash tok).2)).map (fun x => x - 1)) with
      | none => none
      | some end_idx =>
        if 0 ≤ sv - 1 ∧ sv - 1 < (total_pages : Int) ∧
            0 ≤ end_idx ∧ end_idx < (total_pages : Int) ∧ sv - 1 ≤ end_idx then
          some (setAddRange (sv - 1).toNat end_idx.toNat acc)
        else none
  else
    match pyInt (String.mk tok) with
    | none => none
    | some v =>
      if 0 ≤ v - 1 ∧ v - 1 < (total_pages : Int) then some (setAdd (v - 1).toNat acc)
      else none

/-- processing.py `parse_page_ranges`: empty input selects all pages; otherwise
    comma-separated tokens accumulate into a set; any invalid token aborts with
    `none`; a non-empty input resolving to the empty set yields `none`;
    otherwise the sorted set. -/
def partStep (total_pages : Nat) (acc : Option (List Nat)) (part : List Char) : Option (List Nat) :=
  match acc with
  | none => none
  | some ind =>
    if pyStripList part = [] then some ind
    else tokenUpdate total_pages ind (pyStripList part)

def parse_page_ranges (page_range_str : String) (total_pages : Nat) : Option (List Nat) :=
  if pyStrip page_range_str = "" then some (List.range total_pages)
  else
    match (splitOnComma page_range_str.toList).foldl (partStep total_pages) (some []) with
    | none => none
    | some ind =>
      if ind = [] then none else some (List.insertionSort (· ≤ ·) ind)

/-- A token is acceptable if it strips to nothing (skipped) or resolves. -/
def tokenOK (total_pages : Nat) (part : List Char) : Bool :=
  pyStripList part = [] || (tokenUpdate total_pages [] (pyStripList part)).isSome

/-! ## Remote API calls, cancellation and time

The Gemini remote API, the wall clock and the cancellation flag are modelled
explicitly.  Time is measured in seconds and advances only by `time.sleep`
chunks and by caller-supplied call durations.  The cancellation event is a
single threshold instant `cancelAt`: `cancel_event.is_set()` at time `t` is
true iff `cancelAt` is set and `cancelAt ≤ t`.  Each worker records a trace of
observable events: cancellation checks (tagged with their site in the code),
sleeps, remote-object creations and deletion attempts. -/

inductive ApiErr
  | transient
  | quota
  | otherErr
deriving DecidableEq

inductive PyErr
  | cancelled
  | apiTransient
  | apiQuota
  | apiOther
deriving DecidableEq

inductive CheckSite
  | preTask
  | retryEntry
  | backoffWait
  | pollEntry
deriving DecidableEq

inductive Ev
  | check (site : CheckSite) (set : Bool)
  | slept (secs : Nat)
  | created (h : Nat)
  | deleted (h : Nat)
  | deleteFailed (h : Nat)
deriving DecidableEq

/-- File states reported by the Gemini File API (`file.state.name`). -/
inductive FState
  | processing
  | active
  | deleted
  | failedOther
deriving DecidableEq

def isSetAt (cancelAt : Option Nat) (t : Nat) : Bool :=
  match cancelAt with
  | none => false
  | some c => c ≤ t

instance {ε α : Type} [DecidableEq ε] [DecidableEq α] : DecidableEq (Except ε α) := fun a b =>
  match a, b with
  | Except.ok x, Except.ok y =>
    if h : x = y then isTrue (congrArg Except.ok h)
    else isFalse (fun hh => h (Except.ok.inj hh))
  | Except.error x, Except.error y =>
    if h : x = y then isTrue (congrArg Except.error h)
    else isFalse (fun hh => h (Except.error.inj hh))
  | Except.ok _, Except.error _ => isFalse (fun hh => Except.noConfusion hh)
  | Except.error _, Except.ok _ => isFalse (fun hh => Except.noConfusion hh)

/-- Result of one `gemini_api_call_with_retry` invocation: the Python outcome
    (a value or a raised exception), the wall-clock time when it finished, the
    event trace it produced, and how many times `api_function` was invoked. -/
structure CallRes (α : Type) where
  out : Except PyErr α
  endTime : Nat
  trace : List Ev
  calls : Nat
deriving DecidableEq

/-- The backoff wait `for _ in range(int(backoff_time)): if cancel: raise; sleep(1)`
    (processing.py lines 100-102): `n` one-second chunks, each preceded by a
    cancellation check.  Returns whether the wait completed (false = cancelled),
    the time afterwards and the trace. -/
def backoffChunks (cancelAt : Option Nat) : Nat → Nat → Bool × Nat × List Ev
  | t, 0 => (true, t, [])
  | t, n + 1 =>
    if isSetAt cancelAt t then (false, t, [Ev.check CheckSite.backoffWait true])
    else
      match backoffChunks cancelAt (t + 1) n with
      | (b, t2, tr) => (b, t2, Ev.check CheckSite.backoffWait false :: Ev.slept 1 :: tr)

/-- The retry loop of `gemini_api_call_with_retry` (processing.py lines 89-109).
    `att k` is the outcome of the k-th invocation of `api_function`
    (transient errors are retried with doubling capped backoff, ResourceExhausted
    and unexpected errors re-raise immediately); `dur k` its duration.  The
    first argument is the loop iteration bound `retries ≤ MAX_RETRIES_PER_CALL`,
    passed as remaining-iteration fuel alongside the `retries` counter `r`. -/
def retryGo {α : Type} (cancelAt : Option Nat) (att : Nat → Except ApiErr α)
    (dur : Nat → Nat) : Nat → Nat → Nat → Nat → CallRes α
  | 0, _, _, t => ⟨Except.error PyErr.apiOther, t, [], 0⟩
  | fuel + 1, r, backoff, t =>
    if isSetAt cancelAt t then
      ⟨Except.error PyErr.cancelled, t, [Ev.check CheckSite.retryEntry true], 0⟩
    else
      match att r with
      | Except.ok a => ⟨Except.ok a, t + dur r, [Ev.check CheckSite.retryEntry false], 1⟩
      | Except.error ApiErr.quota =>
        ⟨Except.error PyErr.apiQuota, t + dur r, [Ev.check CheckSite.retryEntry false], 1⟩
      | Except.error ApiErr.otherErr =>
        ⟨Except.error PyErr.apiOther, t + dur r, [Ev.check CheckSite.retryEntry false], 1⟩
      | Except.error ApiErr.transient =>
        if r + 1 > MAX_RETRIES_PER_CALL then
          ⟨Except.error PyErr.apiTransient, t + dur r, [Ev.check CheckSite.retryEntry false], 1⟩
        else
          match backoffChunks cancelAt (t + dur r) backoff with
          | (false, t2, tr) =>
            ⟨Except.error PyErr.cancelled, t2, Ev.check CheckSite.retryEntry false :: tr, 1⟩
          | (true, t2, tr) =>
            match retryGo cancelAt att dur fuel (r + 1) (min (backoff * 2) MAX_BACKOFF) t2 with
            | rest =>
              ⟨rest.out, rest.endTime, Ev.check CheckSite.retryEntry false :: (tr ++ rest.trace),
               1 + rest.calls⟩

def gemini_api_call_with_retry {α : Type} (cancelAt : Option Nat)
    (att : Nat → Except ApiErr α) (dur : Nat → Nat) (t : Nat) : CallRes α :=
  retryGo cancelAt att dur (MAX_RETRIES_PER_CALL + 1) 0 INITIAL_BACKOFF t

/-! ## The upload worker `_upload_single_image_task` (processing.py 146-191) -/

/-- Environment of one upload-worker invocation: the cancellation instant, the
    outcomes and durations of the successive `genai.upload_file` attempts, the
    handle and initial state of the remote file on upload success, the outcomes
    and durations of the `genai.get_file` attempts of each poll iteration, and
    whether a `genai.delete_file` attempt succeeds. -/
structure UWEnv where
  cancelAt : Option Nat
  upAtt : Nat → Except ApiErr Unit
  upDur : Nat → Nat
  fileHandle : Nat
  state0 : FState
  getAtt : Nat → Nat → Except ApiErr FState
  getDur : Nat → Nat → Nat
  delOk : Bool

/-- A best-effort `genai.delete_file` wrapped in try/except. -/
def delAttempt (delOk : Bool) (h : Nat) : List Ev :=
  if delOk then [Ev.deleted h] else [Ev.deleteFailed h]

/-- The `while file.state.name == "PROCESSING"` poll loop (lines 155-174):
    cancel check (delete then raise, caught by the enclosing except which
    returns a failure marker), 300-second wall-clock timeout from upload
    completion (delete then fail), 2-second sleep, then `get_file` through the
    retry wrapper; any exception from the wrapper is caught by the enclosing
    except and the worker returns a failure marker.  After the loop: ACTIVE
    succeeds; any other state is deleted (unless already DELETED) and fails.
    The loop terminates because each iteration advances time by at least the
    2-second sleep while the guard requires elapsed ≤ 300; the fuel bound 1000
    of the caller is therefore never exhausted. -/
def pollLoop (env : UWEnv) : Nat → Nat → FState → Nat → Nat → Option Nat × List Ev
  | 0, _, _, _, _ => (none, [])
  | _ + 1, _, FState.active, _, _ => (some env.fileHandle, [])
  | _ + 1, _, FState.deleted, _, _ => (none, [])
  | _ + 1, _, FState.failedOther, _, _ => (none, delAttempt env.delOk env.fileHandle)
  | fuel + 1, i, FState.processing, t0, t =>
    if isSetAt env.cancelAt t then
      (none, Ev.check CheckSite.pollEntry true :: delAttempt env.delOk env.fileHandle)
    else if t - t0 > 300 then
      (none, Ev.check CheckSite.pollEntry false :: delAttempt env.delOk env.fileHandle)
    else
      match retryGo env.cancelAt (env.getAtt i) (env.getDur i)
          (MAX_RETRIES_PER_CALL + 1) 0 INITIAL_BACKOFF (t + 2) with
      | ⟨Except.ok st2, tEnd, ctr, _⟩ =>
        match pollLoop env fuel (i + 1) st2 t0 tEnd with
        | (r, tr) => (r, Ev.check CheckSite.pollEntry false :: Ev.slept 2 :: (ctr ++ tr))
      | ⟨Except.error _, _, ctr, _⟩ =>
        (none, Ev.check CheckSite.pollEntry false :: Ev.slept 2 :: ctr)

/-- Result of one upload worker: the Python outcome (`Except.error cancelled`
    only from the pre-try cancellation check; every exception raised inside the
    try block is caught and becomes the failure marker `Except.ok none`), the
    event trace, and the number of `genai.upload_file` invocations made. -/
structure WRun where
  out : Except PyErr (Option Nat)
  trace : List Ev
  upCalls : Nat
deriving DecidableEq

def uploadWorker (env : UWEnv) : WRun :=
  if isSetAt env.cancelAt 0 then
    ⟨Except.error PyErr.cancelled, [Ev.check CheckSite.preTask true], 0⟩
  else
    match retryGo env.cancelAt env.upAtt env.upDur (MAX_RETRIES_PER_CALL + 1) 0 INITIAL_BACKOFF 0 with
    | ⟨Except.ok _, tEnd, ctr, n⟩ =>
      match pollLoop env 1000 0 env.state0 tEnd tEnd with
      | (res, ptr) =>
        ⟨Except.ok res,
         (Ev.check CheckSite.preTask false :: ctr) ++ Ev.created env.fileHandle :: ptr, n⟩
    | ⟨Except.error _, _, ctr, n⟩ =>
      ⟨Except.ok none, Ev.check CheckSite.preTask false :: ctr, n⟩

/-! ## Trace instruments -/

/-- Sleep durations occurring in a trace, in order. -/
def sleepDurations (tr : List Ev) : List Nat :=
  tr.filterMap (fun e => match e with | Ev.slept n => some n | _ => none)

/-- Handles of remote objects created in a trace. -/
def createdOf (tr : List Ev) : List Nat :=
  tr.filterMap (fun e => match e with | Ev.created h => some h | _ => none)

/-- Handles for which a deletion was attempted in a trace (whether or not the
    remote call succeeded). -/
def deleteAttemptsOf (tr : List Ev) : List Nat :=
  tr.filterMap (fun e =>
    match e with
    | Ev.deleted h => some h
    | Ev.deleteFailed h => some h
    | _ => none)

/-- Scanner for cancellation-awareness of waits: every sleep must directly
    follow a cancellation check (state `true` = a check was the previous
    event), no two sleeps may occur without a check in between, and no single
    uninterrupted sleep may exceed 2 seconds (the longest `time.sleep` in the
    pipeline is the 2-second status-poll sleep). -/
def granScan : Bool → List Ev → Bool
  | _, [] => true
  | b, Ev.slept d :: rest => (b && decide (d ≤ 2)) && granScan false rest
  | _, Ev.check _ _ :: rest => granScan true rest
  | b, Ev.created _ :: rest => granScan b rest
  | b, Ev.deleted _ :: rest => granScan b rest
  | b, Ev.deleteFailed _ :: rest => granScan b rest

/-- The property claimed by the specification: the cancellation flag is
    consulted at sub-second granularity during any wait, i.e. no uninterrupted
    sleep lasts a second or more. -/
def subSecondWaits (tr : List Ev) : Bool :=
  tr.all (fun e => match e with | Ev.slept d => decide (d < 1) | _ => true)

/-! ## Generation phase (processing.py lines 1268-1363) -/

/-- One per-page HTML result dictionary stored into the ordered result list
    (`page_num_in_doc`, `body`, `base64_image`). -/
structure PageContent where
  page_num_in_doc : Nat
  body : String
  base64_image : Option String
deriving DecidableEq

/-- One generation task: the coordinator-tracked order index (`original_idx`),
    the source page number and the model chosen for the next attempt
    (`model_to_use`, escalated on MAX_TOKENS failures). -/
structure GTask where
  originalIdx : Nat
  pageNum : Nat
  modelToUse : String
deriving DecidableEq

/-- The tuple returned by `generate_html_for_image_task`:
    `(original_page_order_index, current_page_num_in_doc, html_body,
    base64_image_data, final_finish_reason)`. -/
structure GResult where
  returnedIdx : Nat
  pageNum : Nat
  body : Option String
  b64 : Option String
  finishReason : Option String
deriving DecidableEq

/-- The `generation_config` built inside `generate_html_for_image_task`:
    temperature 0.1 (represented in tenths), and `max_output_tokens` set to
    `LIMITE_TOKENS_ESCALONAMENTO` exactly when the task runs on the
    escalation model. -/
structure GenerationConfig where
  temperatureTenths : Nat
  max_output_tokens : Option Nat
deriving DecidableEq

def generation_config_for (model_name : String) : GenerationConfig :=
  if model_name = MODELO_ESCALONAMENTO then ⟨1, some LIMITE_TOKENS_ESCALONAMENTO⟩
  else ⟨1, none⟩

/-- Coordinator state while collecting one round's completed futures. -/
structure GenSt where
  buffer : List (Option PageContent)
  failed : List GTask
  writes : List (Nat × PageContent)
deriving DecidableEq

/-- The web coordinator's handling of one completed future (processing.py
    lines 1320-1344): the slot index is `original_task_info.original_idx`,
    taken from the coordinator's own bookkeeping — the index echoed back in the
    result tuple is never consulted.  On success the result is stored at that
    index (an out-of-range index raises IndexError, caught by the surrounding
    except, which requeues the task); on failure the task is requeued, with
    `model_to_use` escalated when the finish reason is MAX_TOKENS. -/
def handleGenResultWeb (st : GenSt) (task : GTask) (res : GResult) : GenSt :=
  match res.body with
  | some b =>
    if task.originalIdx < st.buffer.length then
      ⟨st.buffer.set task.originalIdx (some ⟨res.pageNum, b, res.b64⟩), st.failed,
       st.writes ++ [(task.originalIdx, ⟨res.pageNum, b, res.b64⟩)]⟩
    else
      ⟨st.buffer, st.failed ++ [task], st.writes⟩
  | none =>
    if res.finishReason = some FINISH_REASON_MAX_TOKENS then
      ⟨st.buffer, st.failed ++ [⟨task.originalIdx, task.pageNum, MODELO_ESCALONAMENTO⟩], st.writes⟩
    else
      ⟨st.buffer, st.failed ++ [task], st.writes⟩

/-- The desktop coordinator's handling of one completed future (unnamed
    desktop module, lines 916-947): it additionally compares the echoed index
    with the mapped index, logs an index alert on mismatch while still using
    the mapped index, and bounds-checks the mapped index before writing
    (requeueing the task on an out-of-range index).  Returns the new buffer,
    the requeue additions, and whether the mismatch alert was logged. -/
def handleGenResultDesk (buffer : List (Option PageContent)) (failed : List GTask)
    (task : GTask) (res : GResult) :
    List (Option PageContent) × List GTask × Bool :=
  match res.body with
  | some b =>
    if task.originalIdx < buffer.length then
      (buffer.set task.originalIdx (some ⟨res.pageNum, b, res.b64⟩), failed,
       res.returnedIdx ≠ task.originalIdx)
    else
      (buffer, failed ++ [task], res.returnedIdx ≠ task.originalIdx)
  | none => (buffer, failed ++ [task], res.returnedIdx ≠ task.originalIdx)

/-- Environment of the generation phase: `gen i m r` is the outcome
    `(html_body, base64_image, finish_reason)` produced by
    `generate_html_for_image_task` for the task with order index `i` running on
    model `m` in round `r`; `sched r q` is the order in which round `r`'s
    futures complete (an arbitrary reordering of the queue `q`, possibly
    truncated when the coordinator breaks out of the collection loop early). -/
structure GenEnv where
  gen : Nat → String → Nat → Option String × Option String × Option String
  sched : Nat → List GTask → List GTask

/-- The result tuple of `generate_html_for_image_task`: the worker echoes back
    exactly the `original_page_order_index` and `current_page_num_in_doc` it
    was given. -/
def genWorkerResult (env : GenEnv) (round : Nat) (task : GTask) : GResult :=
  ⟨task.originalIdx, task.pageNum, (env.gen task.originalIdx task.modelToUse round).1,
   (env.gen task.originalIdx task.modelToUse round).2.1,
   (env.gen task.originalIdx task.modelToUse round).2.2⟩

def genRoundStep (env : GenEnv) (round : Nat) (st : GenSt) (task : GTask) : GenSt :=
  handleGenResultWeb st task (genWorkerResult env round task)

/-- Phase state across rounds: the ordered result buffer, the queue of tasks
    for the next round, and the accumulated log of buffer writes. -/
structure GPhaseSt where
  buffer : List (Option PageContent)
  queue : List GTask
  writes : List (Nat × PageContent)
deriving DecidableEq

/-- One retry round (`for attempt in range(PHASE_MAX_RETRIES + 1)` body):
    skipped when the queue is empty; otherwise every collected future is
    handled in completion order and the failed tasks become the next queue. -/
def genRoundRun (env : GenEnv) (r : Nat) (st : GPhaseSt) : GPhaseSt :=
  if st.queue = [] then st
  else
    match (env.sched r st.queue).foldl (genRoundStep env r) ⟨st.buffer, [], st.writes⟩ with
    | gst => ⟨gst.buffer, gst.failed, gst.writes⟩

/-- The generation phase: the result list is pre-allocated to the number of
    tasks (`[None] * len(tasks_for_html_generation)`), and
    `PHASE_MAX_RETRIES + 1` rounds are run. -/
def genPhase (env : GenEnv) (tasks : List GTask) : GPhaseSt :=
  (List.range (PHASE_MAX_RETRIES + 1)).foldl (fun st r => genRoundRun env r st)
    ⟨List.replicate tasks.length none, tasks, []⟩

/-! ## The merged document (create_merged_html_with_accessibility, lines 495-1199) -/

/-- Decimal digits of `n` (structural fuel recursion; `fuel > n` suffices). -/
def natDigitsAux : Nat → Nat → List Char
  | 0, _ => []
  | fuel + 1, n =>
    if n < 10 then [Char.ofNat (48 + n)]
    else natDigitsAux fuel (n / 10) ++ [Char.ofNat (48 + n % 10)]

def natToStr (n : Nat) : String := String.mk (natDigitsAux (n + 1) n)

/-- Python `pat in s` on character lists (substring containment). -/
def containsSub (pat : List Char) : List Char → Bool
  | [] => pat.isEmpty
  | c :: r => pat.isPrefixOf (c :: r) || containsSub pat r

/-- Python `html.escape` (with quote=True). -/
def htmlEscapeChar (c : Char) : List Char :=
  if c = '&' then "&amp;".toList
  else if c = '<' then "&lt;".toList
  else if c = '>' then "&gt;".toList
  else if c = '"' then "&quot;".toList
  else if c = '\x27' then "&#x27;".toList
  else [c]

def htmlEscape (s : String) : String :=
  String.mk (s.toList.map htmlEscapeChar).flatten

/-- Python truthiness of `base64_image` (a missing or empty string is falsy). -/
def b64Truthy : Option String → Bool
  | none => false
  | some s => s ≠ ""

/-- The `<details>` original-page viewer appended when the page has a body, a
    base64 image and a generated description marker (lines 1160-1171). -/
def detailsBlock (cd : PageContent) : String :=
  "\n                <details class=\"original-page-viewer\">\n                    <summary>Ver Imagem da Página Original "
  ++ natToStr cd.page_num_in_doc
  ++ "</summary>\n                    <div style=\"text-align: center; padding: 10px;\">\n                        <img src=\"data:image/png;base64,"
  ++ (match cd.base64_image with | some s => s | none => "")
  ++ "\" alt=\"" ++ htmlEscape ("Imagem original da página " ++ natToStr cd.page_num_in_doc)
  ++ "\" style=\"max-width: 100%; height: auto;\" aria-hidden=\"true\">\n                    </div>\n                </details>\n            "

/-- The placeholder rendered when a content entry is present but its body is
    empty (line 1158). -/
def placeholderFor (pageNum : Nat) : String :=
  "<p><i>[Conteúdo não pôde ser extraído para a página " ++ natToStr pageNum ++ ".]</i></p>"

def PAGE_SEPARATOR : String := "\n<hr class=\"page-separator\" aria-hidden=\"true\">\n"

/-- The per-page article emitted by the merge loop (lines 1148-1172):
    a separator before every page except the first, the article and heading
    for the page number, the body or the placeholder, and conditionally the
    original-image viewer. -/
def pageArticle (first : Bool) (cd : PageContent) : String :=
  (if first then "" else PAGE_SEPARATOR)
  ++ "<article class=\x27page-content\x27 id=\x27page-" ++ natToStr cd.page_num_in_doc
  ++ "\x27 aria-labelledby=\x27page-heading-" ++ natToStr cd.page_num_in_doc ++ "\x27>\n"
  ++ "<h2 id=\x27page-heading-" ++ natToStr cd.page_num_in_doc ++ "\x27>Página "
  ++ natToStr cd.page_num_in_doc ++ "</h2>\n"
  ++ (if cd.body ≠ "" then cd.body else placeholderFor cd.page_num_in_doc)
  ++ (if cd.body ≠ "" ∧ b64Truthy cd.base64_image = true ∧
        containsSub "[Descrição:".toList cd.body.toList = true
      then detailsBlock cd else "")
  ++ "\n</article>\n"

/-- The article sequence produced by the merge loop over `content_list`. -/
def mergedArticles (content_list : List PageContent) : List String :=
  content_list.enum.map (fun pr => pageArticle (pr.1 = 0) pr.2)

/-- Static document preamble: doctype, head (MathJax configuration, fonts,
    accessibility CSS and JS — several hundred lines of static styling and
    script text, represented here by fixed markers since no property below
    depends on their content) and the banner with the escaped title. -/
def mergedPreamble (title : String) : String :=
  "<!DOCTYPE html>\n<html lang=\"pt-BR\">\n<head><title>Accessible Document: "
  ++ htmlEscape title
  ++ "</title>[static-mathjax-css-js]</head>\n<body class=\"dark-mode\"> <header role=\"banner\"><h1>Documento Acessível: "
  ++ htmlEscape title
  ++ "</h1></header>[static-accessibility-controls]\n    <main id=\"main-content\" role=\"main\">\n"

def MERGED_CLOSE : String := "\n    </main>\n</body>\n</html>"

/-- `create_merged_html_with_accessibility`: returns `none` for the
    `if not content_list: return False` guard, otherwise the merged document
    (the LOCAL-mode file write / S3 upload is modelled in the run driver). -/
def create_merged_html (content_list : List PageContent) (title : String) : Option String :=
  if content_list = [] then none
  else some (mergedPreamble title ++ String.join (mergedArticles content_list) ++ MERGED_CLOSE)

/-! ## Desktop partial-output renaming (unnamed desktop module, lines 970-980) -/

/-- `os.path.split`: head keeps trailing separators only when it consists of
    nothing but separators. -/
def ospath_split (p : List Char) : List Char × List Char :=
  if p.contains '/' then
    ((fun headRaw =>
        if headRaw.all (fun c => c = '/') then headRaw
        else (headRaw.reverse.dropWhile (fun c => c = '/')).reverse)
      (p.take (p.length - ((p.reverse.takeWhile (fun c => c ≠ '/')).length))),
     (p.reverse.takeWhile (fun c => c ≠ '/')).reverse)
  else ([], p)

/-- `os.path.splitext` on a basename: split at the last dot unless the part
    before it is empty or all dots. -/
def ospath_splitext (name : List Char) : List Char × List Char :=
  if name.contains '.' then
    (fun after =>
      (fun base =>
        if base.all (fun c => c = '.') then (name, ([] : List Char))
        else (base, '.' :: after))
      (name.take (name.length - after.length - 1)))
    ((name.reverse.takeWhile (fun c => c ≠ '.')).reverse)
  else (name, [])

/-- `os.path.join` for a (dir, name) pair coming from `os.path.split`. -/
def ospath_join (d n : List Char) : List Char :=
  if d = [] then n
  else if d.getLast? = some '/' then d ++ n
  else d ++ '/' :: n

/-- The desktop pipeline's partial-output renaming: strip a trailing
    `_accessible` from the stem and append `_parcial_accessible`, keeping
    directory and extension. -/
def desktop_partial_output_path (initial : String) : String :=
  (fun pr =>
    (fun be =>
      (fun base2 =>
        String.mk (ospath_join pr.1 (base2 ++ "_parcial_accessible".toList ++ be.2)))
      (if ("_accessible".toList).isSuffixOf be.1 then be.1.take (be.1.length - 11) else be.1))
    (ospath_splitext pr.2))
  (ospath_split initial.toList)

/-- The desktop pipeline's partial title: `pdf_filename_for_html_title += " (Parcial)"`. -/
def desktop_partial_title (t : String) : String := t ++ " (Parcial)"

/-! ## Task construction for the generation phase (lines 1273-1297) -/

/-- `re.search(r"page_(\d+)\.\w+$", basename)` match attempt anchored at one
    position: literal `page_`, one or more digits (greedy), a literal dot,
    then one or more word characters reaching the end of the string. -/
def isWordChar (c : Char) : Bool := c.isAlpha || isDigitCh c || c = '_'

def pageNumMatchAt (l : List Char) : Option Nat :=
  if ("page_".toList).isPrefixOf l then
    (fun r1 =>
      (fun digs =>
        if digs = [] then none
        else
          match r1.drop digs.length with
          | '.' :: r3 => if r3 ≠ [] ∧ r3.all isWordChar then some (digitsVal digs) else none
          | _ => none)
      (r1.takeWhile isDigitCh))
    (l.drop 5)
  else none

/-- `re.search` scans left to right for the first matching position. -/
def reSearchPageNum : List Char → Option Nat
  | [] => none
  | c :: r =>
    match pageNumMatchAt (c :: r) with
    | some n => some n
    | none => reSearchPageNum r

/-- `os.path.basename`. -/
def basenameOf (p : String) : String := String.mk (ospath_split p.toList).2

/-- The page number extracted for a local image path (`-1` i.e. `none` when the
    pattern does not match). -/
def pageNumOfPath (p : String) : Option Nat := reSearchPageNum (basenameOf p).toList

/-- Sort key comparison for `sorted(..., key=...)` with missing page numbers
    mapped to infinity. -/
def pageKeyLe (a b : Option Nat) : Bool :=
  match a, b with
  | some x, some y => x ≤ y
  | some _, none => true
  | none, some _ => false
  | none, none => true

/-- The sorted upload-map keys (`sorted_uploaded_image_paths`). -/
def sortPathsByPage (paths : List String) : List String :=
  List.insertionSort (fun p q => pageKeyLe (pageNumOfPath p) (pageNumOfPath q) = true) paths

/-- `tasks_for_html_generation`: enumerate the sorted paths, skip entries whose
    page number could not be determined, and record the enumeration position as
    the coordinator-tracked order index. -/
def mkGenTasks (selected_model : String) (sortedPaths : List String) : List GTask :=
  sortedPaths.enum.filterMap (fun pr =>
    match pageNumOfPath pr.2 with
    | none => none
    | some pn => some ⟨pr.1, pn, selected_model⟩)

/-- The local image path written by `pdf_to_images_local` for 0-based page
    index `p` (`page_{p + 1:05d}.png` inside the temp directory). -/
def imagePathFor (dir : String) (p : Nat) : String :=
  dir ++ "/page_" ++ String.mk (List.replicate (5 - (natDigitsAux (p + 2) (p + 1)).length) '0'
    ++ natDigitsAux (p + 2) (p + 1)) ++ ".png"

/-! ## Upload phase (upload_to_gemini_file_api, processing.py lines 194-287) -/

/-- Environment of the upload phase: a worker environment per image path per
    round, the mime-type guess per path, the completion order of each round's
    futures (an arbitrary reordering of the submitted tasks, possibly truncated
    when the coordinator breaks out of the collection loop on cancellation),
    the coordinator's round-boundary cancellation observations, and the final
    `cancel_event.is_set()` check before returning. -/
structure UPhaseEnv where
  wenv : String → Nat → UWEnv
  mimeOf : String → Option String
  sched : Nat → List String → List String
  cancelSeen : Nat → Bool
  cancelFinal : Bool

/-- Accumulator while collecting one round's completed futures. -/
structure UPoolSt where
  map : List (String × Nat)
  failed : List String
  evs : List Ev
  calls : Nat
  stopped : Bool

/-- Handling of one completed upload future (lines 250-271): a returned file
    object joins the success map, a `None` marker joins the failure list, and a
    propagated `OperationCancelledError` (only possible from the worker's
    pre-try check) adds the item to the failure list and breaks out of the
    collection loop. -/
def uploadPoolStep (env : UPhaseEnv) (r : Nat) (st : UPoolSt) (p : String) : UPoolSt :=
  if st.stopped then st
  else
    match uploadWorker (env.wenv p r) with
    | w =>
      match w.out with
      | Except.ok (some h) =>
        ⟨st.map ++ [(p, h)], st.failed, st.evs ++ w.trace, st.calls + w.upCalls, false⟩
      | Except.ok none =>
        ⟨st.map, st.failed ++ [p], st.evs ++ w.trace, st.calls + w.upCalls, false⟩
      | Except.error _ =>
        ⟨st.map, st.failed ++ [p], st.evs ++ w.trace, st.calls + w.upCalls, true⟩

/-- Phase state across rounds. -/
structure UPhaseSt where
  map : List (String × Nat)
  queue : List String
  evs : List Ev
  calls : Nat

/-- Items of the queue with unresolvable mime type fail immediately without a
    network call (lines 224-232), in queue order. -/
def mimeFailures (m : String → Option String) (q : List String) : List String :=
  q.filter (fun p => (m p).isNone)

def mimeTasks (m : String → Option String) (q : List String) : List String :=
  q.filter (fun p => (m p).isSome)

/-- One upload round: skipped when the queue is empty or cancellation was
    observed at the round boundary; mime failures are collected first, then
    the submitted tasks are collected in completion order; the failures become
    the next round's queue. -/
def uploadRound (env : UPhaseEnv) (r : Nat) (st : UPhaseSt) : UPhaseSt :=
  if st.queue = [] ∨ env.cancelSeen r then st
  else if mimeTasks env.mimeOf st.queue = [] then
    ⟨st.map, mimeFailures env.mimeOf st.queue, st.evs, st.calls⟩
  else
    match (env.sched r (mimeTasks env.mimeOf st.queue)).foldl
        (uploadPoolStep env r) ⟨st.map, [], [], 0, false⟩ with
    | pst =>
      ⟨pst.map, mimeFailures env.mimeOf st.queue ++ pst.failed, st.evs ++ pst.evs,
       st.calls + pst.calls⟩

/-- Outcome of the upload phase: `Except.error cancelled` for the final
    `if cancel_event.is_set(): raise OperationCancelledError` (line 276),
    `Except.ok none` when no image survived although at least one was
    attempted (lines 282-284), otherwise the success map; together with the
    aggregated worker traces and total `genai.upload_file` invocation count. -/
structure UPhaseOut where
  out : Except PyErr (Option (List (String × Nat)))
  evs : List Ev
  calls : Nat

def upload_to_gemini_file_api (env : UPhaseEnv) (image_paths : List String) : UPhaseOut :=
  match (List.range (PHASE_MAX_RETRIES + 1)).foldl (fun st r => uploadRound env r st)
      ⟨[], image_paths, [], 0⟩ with
  | st =>
    if env.cancelFinal then ⟨Except.error PyErr.cancelled, st.evs, st.calls⟩
    else if st.map = [] ∧ 0 < image_paths.length then ⟨Except.ok none, st.evs, st.calls⟩
    else ⟨Except.ok (some st.map), st.evs, st.calls⟩

/-! ## The pipeline entry point process_pdf_web (lines 1202-1407, MODE = LOCAL) -/

/-- The failure surfaced by `completion_callback(False, str(e))`, abstracted by
    its exception site. -/
inductive RunErr
  | configNoApiKey
  | configBadPageRange
  | convertFailed
  | cancelledRun
  | uploadFailed
  | genNoContent
  | mergeFailed
  | mergeWriteFailed
deriving DecidableEq

inductive CompletionMsg
  | locator (path : String)
  | errorText (e : RunErr)
deriving DecidableEq

/-- Environment of one whole run.  `rasterOutcome` stands for the external
    rasterizer (`pdf_to_images_local` driving PyMuPDF): `ok` rasterizes every
    selected page into the canonical `page_NNNNN.png` files, a cancelled error
    is the cooperative cancellation raised inside the conversion loop, any
    other error is the `return None` path.  The remaining fields feed the
    upload and generation phases, the merge file write and the cleanup
    deletions. -/
structure RunEnv where
  apiKeyPresent : Bool
  totalDocPages : Nat
  pageRangeStr : String
  selectedModel : String
  tempDir : String
  pdfBase : String
  outputPathBase : String
  rasterOutcome : Except PyErr Unit
  cancelAfterConvert : Bool
  uenv : UPhaseEnv
  cancelAfterUpload : Bool
  genv : GenEnv
  cancelAfterGen : Bool
  mergeWriteOk : Bool
  cleanupDelOk : Nat → Bool

/-- Observable outcome of one run: the completion-sink invocations, whether
    the partial-success warning status was emitted, whether merge was reached,
    whether the finally block ran, the upload-phase event trace, and the
    deletion attempts made by the finally block (in map order). -/
structure RunRes where
  completions : List (Bool × CompletionMsg)
  warnedPartial : Bool
  mergeCalled : Bool
  cleanupRan : Bool
  phaseEvs : List Ev
  cleanupEvs : List Ev

/-- The `finally` block's remote cleanup (lines 1397-1405): one best-effort
    `genai.delete_file` per entry of the uploaded map, each wrapped in its own
    try/except so an individual failure does not abort the loop. -/
def cleanupDeletes (delOk : Nat → Bool) (mapv : List (String × Nat)) : List Ev :=
  mapv.map (fun pr => if delOk pr.2 then Ev.deleted pr.2 else Ev.deleteFailed pr.2)

/-- Helper assembling the run result for an exit with completion `c`, upload
    trace `evs` and final uploaded map `mapv` (the cleanup block always runs
    and deletes exactly the entries of `mapv`). -/
def runExit (env : RunEnv) (c : Bool × CompletionMsg) (warned merged : Bool)
    (evs : List Ev) (mapv : List (String × Nat)) : RunRes :=
  ⟨[c], warned, merged, true, evs, cleanupDeletes env.cleanupDelOk mapv⟩

/-- `process_pdf_web` in LOCAL mode: configuration checks, rasterization,
    upload phase, generation phase, merge, a single completion-sink invocation,
    and the unconditional finally-block cleanup.  Every exception raised inside
    the try block (including cooperative cancellation) is caught by the
    catch-all `except Exception` which invokes the completion sink with
    `success=False`; the model is therefore a total function and no exception
    propagates to the caller. -/
def process_pdf_web (env : RunEnv) : RunRes :=
  if ¬env.apiKeyPresent then
    runExit env (false, CompletionMsg.errorText RunErr.configNoApiKey) false false [] []
  else
    match parse_page_ranges env.pageRangeStr env.totalDocPages with
    | none => runExit env (false, CompletionMsg.errorText RunErr.configBadPageRange) false false [] []
    | some selected =>
      match env.rasterOutcome with
      | Except.error PyErr.cancelled =>
        runExit env (false, CompletionMsg.errorText RunErr.cancelledRun) false false [] []
      | Except.error _ =>
        runExit env (false, CompletionMsg.errorText RunErr.convertFailed) false false [] []
      | Except.ok () =>
        if selected.map (imagePathFor env.tempDir) = [] then
          runExit env (false, CompletionMsg.errorText RunErr.convertFailed) false false [] []
        else if env.cancelAfterConvert then
          runExit env (false, CompletionMsg.errorText RunErr.cancelledRun) false false [] []
        else
          match upload_to_gemini_file_api env.uenv (selected.map (imagePathFor env.tempDir)) with
          | ⟨Except.error _, evs, _⟩ =>
            runExit env (false, CompletionMsg.errorText RunErr.cancelledRun) false false evs []
          | ⟨Except.ok none, evs, _⟩ =>
            runExit env (false, CompletionMsg.errorText RunErr.uploadFailed) false false evs []
          | ⟨Except.ok (some mapv), evs, _⟩ =>
            if mapv = [] then
              runExit env (false, CompletionMsg.errorText RunErr.uploadFailed) false false evs []
            else if env.cancelAfterUpload then
              runExit env (false, CompletionMsg.errorText RunErr.cancelledRun) false false evs mapv
            else
              match genPhase env.genv
                  (mkGenTasks env.selectedModel (sortPathsByPage (mapv.map Prod.fst))) with
              | gps =>
                if env.cancelAfterGen then
                  runExit env (false, CompletionMsg.errorText RunErr.cancelledRun) false false evs mapv
                else
                  match gps.buffer.filterMap id with
                  | contents =>
                    if contents = [] then
                      runExit env (false, CompletionMsg.errorText RunErr.genNoContent)
                        (0 < (mkGenTasks env.selectedModel
                          (sortPathsByPage (mapv.map Prod.fst))).length) false evs mapv
                    else
                      match create_merged_html contents env.pdfBase with
                      | none =>
                        runExit env (false, CompletionMsg.errorText RunErr.mergeFailed)
                          (contents.length < (mkGenTasks env.selectedModel
                            (sortPathsByPage (mapv.map Prod.fst))).length) true evs mapv
                      | some _doc =>
                        if ¬env.mergeWriteOk then
                          runExit env (false, CompletionMsg.errorText RunErr.mergeWriteFailed)
                            (contents.length < (mkGenTasks env.selectedModel
                              (sortPathsByPage (mapv.map Prod.fst))).length) true evs mapv
                        else
                          runExit env (true, CompletionMsg.locator env.outputPathBase)
                            (contents.length < (mkGenTasks env.selectedModel
                              (sortPathsByPage (mapv.map Prod.fst))).length) true evs mapv

/-! ## Concrete scenario environments used in the theorems below -/

/-- A worker whose upload succeeds immediately and whose file is immediately
    ACTIVE. -/
def okWEnv (h : Nat) : UWEnv :=
  ⟨none, fun _ => Except.ok (), fun _ => 0, h, FState.active,
   fun _ _ => Except.ok FState.active, fun _ _ => 0, true⟩

/-- A worker whose every `upload_file` attempt raises ResourceExhausted. -/
def quotaWEnv (h : Nat) : UWEnv :=
  ⟨none, fun _ => Except.error ApiErr.quota, fun _ => 0, h, FState.active,
   fun _ _ => Except.ok FState.active, fun _ _ => 0, true⟩

/-- A worker whose upload succeeds (creating a remote file) but whose first
    status poll (`get_file`) raises a non-retryable error, so the enclosing
    except returns a failure marker without deleting the created file. -/
def leakWEnv (h : Nat) : UWEnv :=
  ⟨none, fun _ => Except.ok (), fun _ => 0, h, FState.processing,
   fun _ _ => Except.error ApiErr.otherErr, fun _ _ => 0, true⟩

/-- A worker whose upload succeeds, whose file needs one processing poll, and
    which then becomes ACTIVE: its trace contains the uninterrupted 2-second
    status-poll sleep. -/
def cexPollEnv : UWEnv :=
  ⟨none, fun _ => Except.ok (), fun _ => 0, 5, FState.processing,
   fun _ _ => Except.ok FState.active, fun _ _ => 0, true⟩

/-- A worker whose upload succeeds after a 5-second call, with cancellation
    firing at time 3: the first poll-entry check observes cancellation and the
    in-flight remote object is deleted best-effort. -/
def cancelPollEnv : UWEnv :=
  ⟨some 3, fun _ => Except.ok (), fun _ => 5, 6, FState.processing,
   fun _ _ => Except.ok FState.processing, fun _ _ => 0, true⟩

def idSchedU : Nat → List String → List String := fun _ q => q

def idSchedG : Nat → List GTask → List GTask := fun _ q => q

def okPhaseEnv : UPhaseEnv :=
  ⟨fun p _ => okWEnv ((pageNumOfPath p).getD 99), fun _ => some "image/png",
   idSchedU, fun _ => false, false⟩

def cexQuotaPhaseEnv : UPhaseEnv :=
  ⟨fun _ _ => quotaWEnv 3, fun _ => some "image/png", idSchedU, fun _ => false, false⟩

def cexLeakPhaseEnv : UPhaseEnv :=
  ⟨fun _ r => leakWEnv (10 + r), fun _ => some "image/png", idSchedU, fun _ => false, false⟩

/-- A generation environment in which every page succeeds in round 0. -/
def genAllOk : GenEnv :=
  ⟨fun i _ _ => (some (String.append "<p>b" (String.append (natToStr i) "</p>")), none, none),
   idSchedG⟩

/-- A generation environment in which the page at order index 1 permanently
    fails (with a non-truncation finish reason) while the others succeed. -/
def genMidFail : GenEnv :=
  ⟨fun i _ _ =>
      if i = 1 then (none, none, some "OTHER")
      else (some (String.append "<p>b" (String.append (natToStr i) "</p>")), none, none),
   idSchedG⟩

/-- A complete 3-page run: every page uploads and generates successfully. -/
def runFullEnv : RunEnv :=
  ⟨true, 3, "", DEFAULT_GEMINI_MODEL, "t", "doc", "out.html", Except.ok (), false,
   okPhaseEnv, false, genAllOk, false, true, fun _ => true⟩

/-- The same 3-page run except that the second page permanently fails HTML
    generation: 2 of 3 attempted pages succeed. -/
def runPartialEnv : RunEnv :=
  ⟨true, 3, "", DEFAULT_GEMINI_MODEL, "t", "doc", "out.html", Except.ok (), false,
   okPhaseEnv, false, genMidFail, false, true, fun _ => true⟩

/-- A single-page run whose upload permanently fails with quota exhaustion. -/
def runQuotaEnv : RunEnv :=
  ⟨true, 1, "", DEFAULT_GEMINI_MODEL, "t", "doc", "out.html", Except.ok (), false,
   cexQuotaPhaseEnv, false, genAllOk, false, true, fun _ => true⟩

/-- A single-page run whose upload worker creates a remote file in each round
    and then fails mid-poll without deleting it. -/
def runLeakEnv : RunEnv :=
  ⟨true, 1, "", DEFAULT_GEMINI_MODEL, "t", "doc", "out.html", Except.ok (), false,
   cexLeakPhaseEnv, false, genAllOk, false, true, fun _ => true⟩

/-- A generation environment in which the page at order index 1 fails in
    round 0 with the MAX_TOKENS truncation reason, succeeds in round 1 when run
    on the escalation model, and would keep failing on any other model; the
    remaining pages succeed in round 0. -/
def genEscEnv : GenEnv :=
  ⟨fun i m r =>
      if i = 1 ∧ r = 0 then (none, none, some FINISH_REASON_MAX_TOKENS)
      else if i = 1 ∧ m = MODELO_ESCALONAMENTO then (some "<p>esc</p>", none, none)
      else if i = 1 then (none, none, some "OTHER")
      else (some "<p>x</p>", none, none),
   idSchedG⟩

/-- Invariant of the generation coordinator while collecting one round's
    completed futures: `P` is the list of still-uncollected futures of the
    round.  Buffer writes are uniquely indexed, each recorded write stems from
    a worker success of some round for an original task with that order index
    and page number, queued and failed tasks descend from original tasks, and
    the buffer agrees with the write log. -/
structure RInv (env : GenEnv) (r : Nat) (tasks0 : List GTask)
    (P : List GTask) (st : GenSt) : Prop where
  blen : st.buffer.length = tasks0.length
  wnodup : (st.writes.map Prod.fst).Nodup
  wOK : ∀ w ∈ st.writes, (∃ r2 m, (env.gen w.1 m r2).1 = some w.2.body) ∧
    ∃ t ∈ tasks0, t.originalIdx = w.1 ∧ t.pageNum = w.2.page_num_in_doc
  pOK : ∀ tk ∈ P, ∃ t ∈ tasks0, t.originalIdx = tk.originalIdx ∧ t.pageNum = tk.pageNum
  pnodup : (P.map GTask.originalIdx).Nodup
  pfresh : ∀ tk ∈ P, tk.originalIdx ∉ st.writes.map Prod.fst
  fOK : ∀ tk ∈ st.failed, ∃ t ∈ tasks0, t.originalIdx = tk.originalIdx ∧ t.pageNum = tk.pageNum
  ffresh : ∀ tk ∈ st.failed, tk.originalIdx ∉ st.writes.map Prod.fst
  fnodup : (st.failed.map GTask.originalIdx).Nodup
  fnotp : ∀ tk ∈ st.failed, tk.originalIdx ∉ P.map GTask.originalIdx
  bufW : ∀ i c, (i, c) ∈ st.writes → st.buffer[i]? = some (some c)
  bufN : ∀ i, i < tasks0.length → i ∉ st.writes.map Prod.fst → st.buffer[i]? = some none

/-- Invariant of the generation phase between rounds. -/
structure PInv (env : GenEnv) (tasks0 : List GTask) (st : GPhaseSt) : Prop where
  blen : st.buffer.length = tasks0.length
  wnodup : (st.writes.map Prod.fst).Nodup
  wOK : ∀ w ∈ st.writes, (∃ r2 m, (env.gen w.1 m r2).1 = some w.2.body) ∧
    ∃ t ∈ tasks0, t.originalIdx = w.1 ∧ t.pageNum = w.2.page_num_in_doc
  qOK : ∀ tk ∈ st.queue, ∃ t ∈ tasks0, t.originalIdx = tk.originalIdx ∧ t.pageNum = tk.pageNum
  qnodup : (st.queue.map GTask.originalIdx).Nodup
  qfresh : ∀ tk ∈ st.queue, tk.originalIdx ∉ st.writes.map Prod.fst
  bufW : ∀ i c, (i, c) ∈ st.writes → st.buffer[i]? = some (some c)
  bufN : ∀ i, i < tasks0.length → i ∉ st.writes.map Prod.fst → st.buffer[i]? = some none

/-- The generation tasks of the 3-page runs above. -/
def tasks3 : List GTask :=
  mkGenTasks DEFAULT_GEMINI_MODEL (sortPathsByPage
    ((upload_to_gemini_file_api okPhaseEnv
        ([0, 1, 2].map (imagePathFor "t"))).out.toOption.join.getD [] |>.map Prod.fst))

/-- A generation environment in which every page permanently fails. -/
def genAllFail : GenEnv :=
  ⟨fun _ _ _ => (none, none, some "OTHER"), idSchedG⟩

/-- The 3-page run in which every page fails HTML generation: zero populated
    slots although three tasks were attempted. -/
def runZeroEnv : RunEnv :=
  ⟨true, 3, "", DEFAULT_GEMINI_MODEL, "t", "doc", "out.html", Except.ok (), false,
   okPhaseEnv, false, genAllFail, false, true, fun _ => true⟩

/-- The standard 3-page run scaffold (page range empty, conversion and upload
    succeed, no cancellation, merge write succeeds) with an arbitrary
    generation environment plugged in. -/
def runWithGen (g : GenEnv) : RunEnv :=
  ⟨true, 3, "", DEFAULT_GEMINI_MODEL, "t", "doc", "out.html", Except.ok (), false,
   okPhaseEnv, false, g, false, true, fun _ => true⟩

/-- The success map accumulated by the upload phase after all retry rounds
    (the state folded by `upload_to_gemini_file_api` before its final
    cancellation and emptiness checks). -/
def finalUploadMap (env : UPhaseEnv) (paths : List String) : List (String × Nat) :=
  ((List.range (PHASE_MAX_RETRIES + 1)).foldl (fun st r => uploadRound env r st)
    ⟨[], paths, [], 0⟩).map

/-! ### Lemmas about the page-range parser -/

theorem mem_setAdd {y x : Nat} {acc : List Nat} :
    y ∈ setAdd x acc ↔ y = x ∨ y ∈ acc := by
  unfold setAdd
  split
  · rename_i h
    constructor
    · exact Or.inr
    · rintro (rfl | h2) <;> assumption
  · simp

theorem nodup_setAdd {x : Nat} {acc : List Nat} (h : acc.Nodup) :
    (setAdd x acc).Nodup := by
  unfold setAdd
  split
  · exact h
  · exact List.nodup_cons.mpr ⟨by assumption, h⟩

theorem mem_foldl_setAdd (l : List Nat) (acc : List Nat) (y : Nat) :
    y ∈ l.foldl (fun a x => setAdd x a) acc ↔ y ∈ l ∨ y ∈ acc := by
  induction l generalizing acc with
  | nil => simp
  | cons x xs ih =>
    rw [List.foldl_cons, ih]
    rw [mem_setAdd]
    simp only [List.mem_cons]
    tauto

theorem nodup_foldl_setAdd (l : List Nat) (acc : List Nat) (h : acc.Nodup) :
    (l.foldl (fun a x => setAdd x a) acc).Nodup := by
  induction l generalizing acc with
  | nil => exact h
  | cons x xs ih => exact ih _ (nodup_setAdd h)

theorem tokenUpdate_sound {N : Nat} {acc acc2 : List Nat} {tok : List Char}
    (h : tokenUpdate N acc tok = some acc2) (hb : ∀ i ∈ acc, i < N) :
    (∀ i ∈ acc2, i < N) ∧ (acc.Nodup → acc2.Nodup) := by
  unfold tokenUpdate at h
  split at h
  · split at h
    · exact absurd h (by simp)
    · split at h
      · exact absurd h (by simp)
      · split at h
        · rename_i sv hp end_idx he hbounds
          obtain ⟨h1, h2, h3, h4, h5⟩ := hbounds
          rw [Option.some_inj] at h
          subst h
          unfold setAddRange
          refine ⟨?_, fun hn => nodup_foldl_setAdd _ _ hn⟩
          intro i hi
          rw [mem_foldl_setAdd] at hi
          rcases hi with hi | hi
          · rw [List.mem_range'] at hi
            omega
          · exact hb i hi
        · exact absurd h (by simp)
  · split at h
    · exact absurd h (by simp)
    · split at h
      · rename_i v hp hbounds
        obtain ⟨h1, h2⟩ := hbounds
        rw [Option.some_inj] at h
        subst h
        refine ⟨?_, nodup_setAdd⟩
        intro i hi
        rw [mem_setAdd] at hi
        rcases hi with rfl | hi
        · omega
        · exact hb i hi
      · exact absurd h (by simp)

theorem tokenUpdate_isSome (N : Nat) (acc : List Nat) (tok : List Char) :
    (tokenUpdate N acc tok).isSome = (tokenUpdate N [] tok).isSome := by
  unfold tokenUpdate
  split
  · split
    · rfl
    · split
      · rfl
      · split <;> rfl
  · split
    · rfl
    · split <;> rfl

theorem foldl_partStep_none (N : Nat) (parts : List (List Char)) :
    parts.foldl (partStep N) none = none := by
  induction parts with
  | nil => rfl
  | cons p ps ih => exact ih

theorem partStep_some {N : Nat} {ind0 ind1 : List Nat} {part : List Char}
    (h : partStep N (some ind0) part = some ind1) :
    (pyStripList part = [] ∧ ind1 = ind0) ∨
      (pyStripList part ≠ [] ∧ tokenUpdate N ind0 (pyStripList part) = some ind1) := by
  simp only [partStep] at h
  by_cases hp : pyStripList part = []
  · rw [if_pos hp, Option.some_inj] at h
    exact Or.inl ⟨hp, h.symm⟩
  · rw [if_neg hp] at h
    exact Or.inr ⟨hp, h⟩

theorem foldl_partStep_sound (N : Nat) (parts : List (List Char)) :
    ∀ ind0 : List Nat, (∀ i ∈ ind0, i < N) → ind0.Nodup →
      ∀ ind, parts.foldl (partStep N) (some ind0) = some ind →
        (∀ i ∈ ind, i < N) ∧ ind.Nodup := by
  induction parts with
  | nil =>
    intro ind0 hb hn ind h
    rw [List.foldl_nil, Option.some_inj] at h
    subst h
    exact ⟨hb, hn⟩
  | cons p ps ih =>
    intro ind0 hb hn ind h
    rw [List.foldl_cons] at h
    rcases hstep : partStep N (some ind0) p with _ | ind1
    · rw [hstep, foldl_partStep_none] at h
      exact absurd h (by simp)
    · rw [hstep] at h
      rcases partStep_some hstep with ⟨_, rfl⟩ | ⟨_, ht⟩
      · exact ih _ hb hn ind h
      · obtain ⟨hb1, hn1⟩ := tokenUpdate_sound ht hb
        exact ih ind1 hb1 (hn1 hn) ind h

theorem foldl_partStep_all_ok (N : Nat) (parts : List (List Char)) :
    ∀ ind0 ind, parts.foldl (partStep N) (some ind0) = some ind →
      ∀ part ∈ parts, tokenOK N part = true := by
  induction parts with
  | nil => simp
  | cons p ps ih =>
    intro ind0 ind h part hmem
    rw [List.foldl_cons] at h
    rcases hstep : partStep N (some ind0) p with _ | ind1
    · rw [hstep, foldl_partStep_none] at h
      exact absurd h (by simp)
    · rw [hstep] at h
      rcases List.mem_cons.mp hmem with rfl | hmem2
      · rcases partStep_some hstep with ⟨hp, _⟩ | ⟨hp, ht⟩
        · simp [tokenOK, hp]
        · have hs : (tokenUpdate N ind0 (pyStripList part)).isSome = true := by
            rw [ht]; rfl
          rw [tokenUpdate_isSome] at hs
          simp [tokenOK, hp, hs]
      · exact ih ind1 ind h part hmem2

theorem parse_page_ranges_sound (s : String) (N : Nat) (l : List Nat)
    (h : parse_page_ranges s N = some l) :
    l.Sorted (· < ·) ∧ (∀ i ∈ l, i < N) := by
  unfold parse_page_ranges at h
  split at h
  · rw [Option.some_inj] at h
    subst h
    exact ⟨List.pairwise_lt_range N, fun i hi => List.mem_range.mp hi⟩
  · split at h
    · exact absurd h (by simp)
    · rename_i ind hind
      split at h
      · exact absurd h (by simp)
      · rw [Option.some_inj] at h
        subst h
        obtain ⟨hb, hnd⟩ := foldl_partStep_sound N _ [] (by simp) (by simp) ind hind
        have hperm := List.perm_insertionSort (· ≤ ·) ind
        have hsorted := List.sorted_insertionSort (· ≤ ·) ind
        have hnodup : (List.insertionSort (· ≤ ·) ind).Nodup := hperm.nodup_iff.mpr hnd
        refine ⟨?_, fun i hi => hb i (hperm.mem_iff.mp hi)⟩
        exact List.Pairwise.imp (fun hab => lt_of_le_of_ne hab.1 hab.2) (hsorted.and hnodup)

theorem pyStripList_eq_nil (l : List Char) (h : pyStripList l = []) :
    ∀ c ∈ l, pyWhitespace c = true := by
  unfold pyStripList at h
  rw [List.reverse_eq_nil_iff, List.dropWhile_eq_nil_iff] at h
  intro c hc
  have hsplit := List.takeWhile_append_dropWhile (p := pyWhitespace) (l := l)
  rw [← hsplit] at hc
  rcases List.mem_append.mp hc with hc | hc
  · exact List.mem_takeWhile_imp hc
  · exact h c (List.mem_reverse.mpr hc)

theorem splitOnComma_ne_nil (l : List Char) : splitOnComma l ≠ [] := by
  cases l with
  | nil => simp [splitOnComma]
  | cons c r =>
    simp only [splitOnComma]
    cases h : splitOnComma r with
    | nil => simp
    | cons h1 t =>
      by_cases hc : c = ',' <;> simp [hc]

theorem mem_splitOnComma_mem (l : List Char) :
    ∀ part ∈ splitOnComma l, ∀ c ∈ part, c ∈ l := by
  induction l with
  | nil =>
    intro part hp c hc
    simp [splitOnComma] at hp
    subst hp
    exact absurd hc (by simp)
  | cons a r ih =>
    intro part hp c hc
    unfold splitOnComma at hp
    rcases hsc : splitOnComma r with _ | ⟨h1, t⟩
    · exact absurd hsc (splitOnComma_ne_nil r)
    · rw [hsc] at hp
      have hp2 : part ∈ (if a = ',' then [] :: h1 :: t else (a :: h1) :: t) := hp
      by_cases ha : a = ','
      · rw [if_pos ha] at hp2
        rcases List.mem_cons.mp hp2 with rfl | hp3
        · exact absurd hc (by simp)
        · exact List.mem_cons_of_mem a (ih part (by rw [hsc]; exact hp3) c hc)
      · rw [if_neg ha] at hp2
        rcases List.mem_cons.mp hp2 with rfl | hp3
        · rcases List.mem_cons.mp hc with rfl | hc2
          · exact List.mem_cons_self _ _
          · exact List.mem_cons_of_mem a
              (ih h1 (by rw [hsc]; exact List.mem_cons_self h1 t) c hc2)
        · exact List.mem_cons_of_mem a
            (ih part (by rw [hsc]; exact List.mem_cons_of_mem h1 hp3) c hc)

theorem parse_page_ranges_all_or_nothing (s : String) (N : Nat) (l : List Nat)
    (h : parse_page_ranges s N = some l) :
    ∀ part ∈ splitOnComma s.toList, tokenOK N part = true := by
  unfold parse_page_ranges at h
  split at h
  · rename_i hempty
    intro part hmem
    have hws : ∀ c ∈ part, pyWhitespace c = true := by
      intro c hc
      have : pyStripList s.toList = [] := by
        have : (pyStrip s).toList = [] := by rw [hempty]; rfl
        rwa [pyStrip] at this
      exact pyStripList_eq_nil s.toList this c (mem_splitOnComma_mem s.toList part hmem c hc)
    have hstripped : pyStripList part = [] := by
      unfold pyStripList
      rw [List.reverse_eq_nil_iff, List.dropWhile_eq_nil_iff]
      intro c hc
      exact hws c (by
        have h1 : c ∈ part.dropWhile pyWhitespace := List.mem_reverse.mp hc
        exact List.Sublist.mem h1 (List.dropWhile_sublist _))
    simp [tokenOK, hstripped]
  · split at h
    · exact absurd h (by simp)
    · rename_i ind hind
      exact fun part hmem => foldl_partStep_all_ok N _ [] ind hind part hmem

theorem parse_page_ranges_empty (s : String) (N : Nat) (h : pyStrip s = "") :
    parse_page_ranges s N = some (List.range N) := by
  unfold parse_page_ranges
  rw [if_pos h]

theorem parse_page_ranges_no_empty_result (s : String) (N : Nat) (l : List Nat)
    (hs : pyStrip s ≠ "") (h : parse_page_ranges s N = some l) : l ≠ [] := by
  unfold parse_page_ranges at h
  rw [if_neg hs] at h
  split at h
  · exact absurd h (by simp)
  · split at h
    · exact absurd h (by simp)
    · rename_i ind hind hne
      rw [Option.some_inj] at h
      subst h
      intro hnil
      have hperm := List.perm_insertionSort (· ≤ ·) ind
      rw [hnil] at hperm
      exact hne hperm.symm.eq_nil

/-- C3: for every range string and total page count N, `parse_page_ranges`
    returns a sorted, deduplicated, 0-based list of indices below N; the empty
    (all-whitespace) string yields all pages; on success every comma token of
    the input was valid, so a single malformed, reversed or out-of-bounds token
    invalidates the whole input and no partial list is ever returned; a
    non-empty input may not resolve to an empty selection; and the range
    1-3,5,7- on a 10-page document resolves to indices 0,1,2,4,6,7,8,9. -/
theorem c3_page_range_parse :
    (∀ (s : String) (N : Nat) (l : List Nat), parse_page_ranges s N = some l →
        l.Sorted (· < ·) ∧ ∀ i ∈ l, i < N) ∧
    (∀ (s : String) (N : Nat), pyStrip s = "" →
        parse_page_ranges s N = some (List.range N)) ∧
    (∀ (s : String) (N : Nat) (l : List Nat), parse_page_ranges s N = some l →
        ∀ part ∈ splitOnComma s.toList, tokenOK N part = true) ∧
    (∀ (s : String) (N : Nat) (l : List Nat), pyStrip s ≠ "" →
        parse_page_ranges s N = some l → l ≠ []) ∧
    parse_page_ranges "1-3,5,7-" 10 = some [0, 1, 2, 4, 6, 7, 8, 9] :=
  ⟨parse_page_ranges_sound, parse_page_ranges_empty, parse_page_ranges_all_or_nothing,
   parse_page_ranges_no_empty_result, by decide⟩

/-- Witness for `c3_page_range_parse` at a concrete input. -/
theorem c3_page_range_parse_witness :
    ([0, 1, 2, 4, 6, 7, 8, 9] : List Nat).Sorted (· < ·) ∧
      (∀ i ∈ ([0, 1, 2, 4, 6, 7, 8, 9] : List Nat), i < 10) :=
  c3_page_range_parse.1 "1-3,5,7-" 10 [0, 1, 2, 4, 6, 7, 8, 9] (by decide)

/-! ### Cancellation-awareness of waits -/

theorem granScan_append_all {l2 : List Ev} (h2 : ∀ s, granScan s l2 = true) :
    ∀ (l1 : List Ev) (b : Bool), granScan b l1 = true → granScan b (l1 ++ l2) = true := by
  intro l1
  induction l1 with
  | nil =>
    intro b _
    simpa using h2 b
  | cons e r ih =>
    intro b h
    cases e with
    | check site set =>
      simp only [List.cons_append, granScan] at h ⊢
      exact ih true h
    | slept d =>
      simp only [List.cons_append, granScan, Bool.and_eq_true] at h ⊢
      exact ⟨h.1, ih false h.2⟩
    | created hh =>
      simp only [List.cons_append, granScan] at h ⊢
      exact ih b h
    | deleted hh =>
      simp only [List.cons_append, granScan] at h ⊢
      exact ih b h
    | deleteFailed hh =>
      simp only [List.cons_append, granScan] at h ⊢
      exact ih b h

theorem backoffChunks_gran (ca : Option Nat) :
    ∀ (n t : Nat) (s : Bool), granScan s (backoffChunks ca t n).2.2 = true := by
  intro n
  induction n with
  | zero => intro t s; rfl
  | succ m ih =>
    intro t s
    simp only [backoffChunks]
    split
    · rfl
    · rcases hbc : backoffChunks ca (t + 1) m with ⟨b2, t2, tr⟩
      have h0 := ih (t + 1) false
      rw [hbc] at h0
      simpa [granScan] using h0

theorem delAttempt_gran (delOk : Bool) (h : Nat) (s : Bool) :
    granScan s (delAttempt delOk h) = true := by
  cases delOk <;> rfl

theorem retryGo_gran {α : Type} (ca : Option Nat) (att : Nat → Except ApiErr α)
    (dur : Nat → Nat) :
    ∀ (fuel r b t : Nat) (s : Bool), granScan s (retryGo ca att dur fuel r b t).trace = true := by
  intro fuel
  induction fuel with
  | zero => intro r b t s; rfl
  | succ f ih =>
    intro r b t s
    simp only [retryGo]
    split
    · rfl
    · split
      · rfl
      · rfl
      · rfl
      · by_cases hr : r + 1 > MAX_RETRIES_PER_CALL
        · rw [if_pos hr]
          rfl
        · rw [if_neg hr]
          rcases hbc : backoffChunks ca (t + dur r) b with ⟨bb, t2, tr⟩
          have hbg : granScan true tr = true := by
            have h0 := backoffChunks_gran ca b (t + dur r) true
            rw [hbc] at h0
            exact h0
          cases bb with
          | false => simpa [granScan] using hbg
          | true =>
            have happ := granScan_append_all
              (fun s2 => ih (r + 1) (min (b * 2) MAX_BACKOFF) t2 s2) tr true hbg
            simpa [granScan] using happ

theorem pollLoop_gran (env : UWEnv) :
    ∀ (fuel i : Nat) (st : FState) (t0 t : Nat) (s : Bool),
      granScan s (pollLoop env fuel i st t0 t).2 = true := by
  intro fuel
  induction fuel with
  | zero => intro i st t0 t s; rfl
  | succ f ih =>
    intro i st t0 t s
    cases st with
    | active => rfl
    | deleted => rfl
    | failedOther => exact delAttempt_gran env.delOk env.fileHandle s
    | processing =>
      simp only [pollLoop]
      by_cases hset : isSetAt env.cancelAt t = true
      · rw [if_pos hset]
        simpa [granScan] using delAttempt_gran env.delOk env.fileHandle true
      · rw [if_neg hset]
        by_cases hto : t - t0 > 300
        · rw [if_pos hto]
          simpa [granScan] using delAttempt_gran env.delOk env.fileHandle true
        · rw [if_neg hto]
          rcases hc : retryGo env.cancelAt (env.getAtt i) (env.getDur i)
              (MAX_RETRIES_PER_CALL + 1) 0 INITIAL_BACKOFF (t + 2) with ⟨cout, tEnd, ctr, n⟩
          have hcg : ∀ s2 : Bool, granScan s2 ctr = true := by
            intro s2
            have h0 := retryGo_gran env.cancelAt (env.getAtt i) (env.getDur i)
              (MAX_RETRIES_PER_CALL + 1) 0 INITIAL_BACKOFF (t + 2) s2
            rw [hc] at h0
            exact h0
          cases cout with
          | error e => simpa [granScan] using hcg false
          | ok st2 =>
            have happ := granScan_append_all
              (fun s2 => ih (i + 1) st2 t0 tEnd s2) ctr false (hcg false)
            simpa [granScan] using happ

theorem uploadWorker_gran (env : UWEnv) (s : Bool) :
    granScan s (uploadWorker env).trace = true := by
  unfold uploadWorker
  split
  · rfl
  · rcases hc : retryGo env.cancelAt env.upAtt env.upDur
        (MAX_RETRIES_PER_CALL + 1) 0 INITIAL_BACKOFF 0 with ⟨cout, tEnd, ctr, n⟩
    have hcg : ∀ s2 : Bool, granScan s2 ctr = true := by
      intro s2
      have h0 := retryGo_gran env.cancelAt env.upAtt env.upDur
        (MAX_RETRIES_PER_CALL + 1) 0 INITIAL_BACKOFF 0 s2
      rw [hc] at h0
      exact h0
    cases cout with
    | error e => simpa [granScan] using hcg true
    | ok u =>
      have hpg : ∀ s2 : Bool,
          granScan s2 (Ev.created env.fileHandle :: (pollLoop env 1000 0 env.state0 tEnd tEnd).2) = true := by
        intro s2
        simpa [granScan] using pollLoop_gran env 1000 0 env.state0 tEnd tEnd s2
      have happ := granScan_append_all hpg
        (Ev.check CheckSite.preTask false :: ctr) s
        (by simpa [granScan] using hcg true)
      simpa [granScan] using happ

/-! ### No poll-entry checks inside the retry wrapper -/

theorem backoffChunks_no_pollEntry (ca : Option Nat) :
    ∀ (n t : Nat) (b : Bool), Ev.check CheckSite.pollEntry b ∉ (backoffChunks ca t n).2.2 := by
  intro n
  induction n with
  | zero => intro t b; simp [backoffChunks]
  | succ m ih =>
    intro t b
    simp only [backoffChunks]
    split
    · simp
    · rcases hbc : backoffChunks ca (t + 1) m with ⟨b2, t2, tr⟩
      have h0 := ih (t + 1) b
      rw [hbc] at h0
      simpa using h0

theorem retryGo_no_pollEntry {α : Type} (ca : Option Nat) (att : Nat → Except ApiErr α)
    (dur : Nat → Nat) :
    ∀ (fuel r bo t : Nat) (b : Bool),
      Ev.check CheckSite.pollEntry b ∉ (retryGo ca att dur fuel r bo t).trace := by
  intro fuel
  induction fuel with
  | zero => intro r bo t b; simp [retryGo]
  | succ f ih =>
    intro r bo t b
    simp only [retryGo]
    split
    · simp
    · split
      · simp
      · simp
      · simp
      · by_cases hr : r + 1 > MAX_RETRIES_PER_CALL
        · rw [if_pos hr]
          simp
        · rw [if_neg hr]
          rcases hbc : backoffChunks ca (t + dur r) bo with ⟨bb, t2, tr⟩
          have hnb := backoffChunks_no_pollEntry ca bo (t + dur r) b
          rw [hbc] at hnb
          cases bb with
          | false => simpa using hnb
          | true =>
            have hni := ih (r + 1) (min (bo * 2) MAX_BACKOFF) t2 b
            simp only [List.mem_cons, List.mem_append]
            intro hmem
            rcases hmem with hmem | hmem | hmem
            · exact absurd hmem (by simp)
            · exact hnb hmem
            · exact hni hmem

/-! ### Cancellation observed mid-poll deletes the in-flight object -/

theorem pollLoop_cancel_delete (env : UWEnv) :
    ∀ (fuel i : Nat) (st : FState) (t0 t : Nat),
      Ev.check CheckSite.pollEntry true ∈ (pollLoop env fuel i st t0 t).2 →
        (pollLoop env fuel i st t0 t).1 = none ∧
          (Ev.deleted env.fileHandle ∈ (pollLoop env fuel i st t0 t).2 ∨
            Ev.deleteFailed env.fileHandle ∈ (pollLoop env fuel i st t0 t).2) := by
  intro fuel
  induction fuel with
  | zero => intro i st t0 t h; exact absurd h (by simp [pollLoop])
  | succ f ih =>
    intro i st t0 t h
    cases st with
    | active => exact absurd h (by simp [pollLoop])
    | deleted => exact absurd h (by simp [pollLoop])
    | failedOther =>
      exact absurd h (by cases hd : env.delOk <;> simp [pollLoop, delAttempt, hd])
    | processing =>
      simp only [pollLoop] at h ⊢
      by_cases hset : isSetAt env.cancelAt t = true
      · rw [if_pos hset]
        refine ⟨rfl, ?_⟩
        cases hd : env.delOk <;> simp [delAttempt, hd]
      · rw [if_neg hset] at h ⊢
        by_cases hto : t - t0 > 300
        · rw [if_pos hto] at h
          exfalso
          rcases List.mem_cons.mp h with hmem | hmem
          · exact absurd hmem (by simp)
          · cases hd : env.delOk <;> rw [hd] at hmem <;> simp [delAttempt] at hmem
        · rw [if_neg hto] at h ⊢
          rcases hc : retryGo env.cancelAt (env.getAtt i) (env.getDur i)
              (MAX_RETRIES_PER_CALL + 1) 0 INITIAL_BACKOFF (t + 2) with ⟨cout, tEnd, ctr, n⟩
          have hnr := retryGo_no_pollEntry env.cancelAt (env.getAtt i) (env.getDur i)
            (MAX_RETRIES_PER_CALL + 1) 0 INITIAL_BACKOFF (t + 2) true
          rw [hc] at hnr
          rw [hc] at h
          cases cout with
          | error e =>
            exfalso
            have h2 : Ev.check CheckSite.pollEntry true ∈
                Ev.check CheckSite.pollEntry false :: Ev.slept 2 :: ctr := h
            rcases List.mem_cons.mp h2 with hmem | hmem
            · exact absurd hmem (by simp)
            · rcases List.mem_cons.mp hmem with hmem2 | hmem2
              · exact absurd hmem2 (by simp)
              · exact hnr hmem2
          | ok st2 =>
            have h2 : Ev.check CheckSite.pollEntry true ∈
                Ev.check CheckSite.pollEntry false :: Ev.slept 2 ::
                  (ctr ++ (pollLoop env f (i + 1) st2 t0 tEnd).2) := h
            have hmem3 : Ev.check CheckSite.pollEntry true ∈ (pollLoop env f (i + 1) st2 t0 tEnd).2 := by
              rcases List.mem_cons.mp h2 with hmem | hmem
              · exact absurd hmem (by simp)
              · rcases List.mem_cons.mp hmem with hmem2 | hmem2
                · exact absurd hmem2 (by simp)
                · rcases List.mem_append.mp hmem2 with h4 | h4
                  · exact absurd h4 hnr
                  · exact h4
            obtain ⟨hres, hdel⟩ := ih (i + 1) st2 t0 tEnd hmem3
            refine ⟨hres, ?_⟩
            rcases hdel with hdel | hdel
            · exact Or.inl (List.mem_cons_of_mem _ (List.mem_cons_of_mem _
                (List.mem_append_right _ hdel)))
            · exact Or.inr (List.mem_cons_of_mem _ (List.mem_cons_of_mem _
                (List.mem_append_right _ hdel)))

theorem uploadWorker_cancel_midpoll (env : UWEnv)
    (h : Ev.check CheckSite.pollEntry true ∈ (uploadWorker env).trace) :
    (uploadWorker env).out = Except.ok none ∧
      (Ev.deleted env.fileHandle ∈ (uploadWorker env).trace ∨
        Ev.deleteFailed env.fileHandle ∈ (uploadWorker env).trace) := by
  unfold uploadWorker at h ⊢
  by_cases hset : isSetAt env.cancelAt 0 = true
  · rw [if_pos hset] at h
    exact absurd h (by simp)
  · rw [if_neg hset] at h ⊢
    rcases hc : retryGo env.cancelAt env.upAtt env.upDur
        (MAX_RETRIES_PER_CALL + 1) 0 INITIAL_BACKOFF 0 with ⟨cout, tEnd, ctr, n⟩
    rw [hc] at h
    have hnr := retryGo_no_pollEntry env.cancelAt env.upAtt env.upDur
      (MAX_RETRIES_PER_CALL + 1) 0 INITIAL_BACKOFF 0 true
    rw [hc] at hnr
    cases cout with
    | error e =>
      exfalso
      have h2 : Ev.check CheckSite.pollEntry true ∈ Ev.check CheckSite.preTask false :: ctr := h
      rcases List.mem_cons.mp h2 with hmem | hmem
      · exact absurd hmem (by simp)
      · exact hnr hmem
    | ok u =>
      have h2 : Ev.check CheckSite.pollEntry true ∈
          (Ev.check CheckSite.preTask false :: ctr) ++
            Ev.created env.fileHandle :: (pollLoop env 1000 0 env.state0 tEnd tEnd).2 := h
      have hmem3 : Ev.check CheckSite.pollEntry true ∈ (pollLoop env 1000 0 env.state0 tEnd tEnd).2 := by
        rcases List.mem_append.mp h2 with hmem | hmem
        · rcases List.mem_cons.mp hmem with hmem2 | hmem2
          · exact absurd hmem2 (by simp)
          · exact absurd hmem2 hnr
        · rcases List.mem_cons.mp hmem with hmem2 | hmem2
          · exact absurd hmem2 (by simp)
          · exact hmem2
      obtain ⟨hres, hdel⟩ := pollLoop_cancel_delete env 1000 0 env.state0 tEnd tEnd hmem3
      constructor
      · show Except.ok (pollLoop env 1000 0 env.state0 tEnd tEnd).1 = Except.ok none
        rw [hres]
      · rcases hdel with hdel | hdel
        · exact Or.inl (List.mem_append_right _ (List.mem_cons_of_mem _ hdel))
        · exact Or.inr (List.mem_append_right _ (List.mem_cons_of_mem _ hdel))

theorem uploadWorker_first_event (env : UWEnv) :
    ∃ b, (uploadWorker env).trace.head? = some (Ev.check CheckSite.preTask b) := by
  unfold uploadWorker
  split
  · exact ⟨true, rfl⟩
  · rcases hc : retryGo env.cancelAt env.upAtt env.upDur
        (MAX_RETRIES_PER_CALL + 1) 0 INITIAL_BACKOFF 0 with ⟨cout, tEnd, ctr, n⟩
    cases cout with
    | error e => exact ⟨false, rfl⟩
    | ok u => exact ⟨false, rfl⟩

/-- C9 counterexample: the status poll of the upload worker sleeps 2 whole
    seconds between consecutive cancellation checks, so the cancellation flag
    is not consulted at sub-second granularity during that wait. -/
theorem c9_cancellation_counterexample :
    (uploadWorker cexPollEnv).trace =
      [Ev.check CheckSite.preTask false, Ev.check CheckSite.retryEntry false, Ev.created 5,
       Ev.check CheckSite.pollEntry false, Ev.slept 2, Ev.check CheckSite.retryEntry false] ∧
    Ev.slept 2 ∈ (uploadWorker cexPollEnv).trace ∧
    subSecondWaits (uploadWorker cexPollEnv).trace = false := by decide

/-- C9 amended: every wait of the upload worker (retry backoff sleeps and the
    status-poll sleep) is cancellation-aware at one-to-two-second granularity —
    every sleep directly follows a cancellation check, no single uninterrupted
    sleep exceeds 2 seconds and no two sleeps occur without a check in between;
    the worker's first event is the pre-task cancellation check; and when
    cancellation is observed at a poll-entry check, a best-effort deletion of
    the in-flight remote object is attempted and the worker returns the item as
    a failure marker (never writing a success). -/
theorem c9_cancellation_amended :
    (∀ (env : UWEnv) (s : Bool), granScan s (uploadWorker env).trace = true) ∧
    (∀ env : UWEnv, ∃ b, (uploadWorker env).trace.head? = some (Ev.check CheckSite.preTask b)) ∧
    (∀ env : UWEnv, Ev.check CheckSite.pollEntry true ∈ (uploadWorker env).trace →
      (uploadWorker env).out = Except.ok none ∧
        (Ev.deleted env.fileHandle ∈ (uploadWorker env).trace ∨
          Ev.deleteFailed env.fileHandle ∈ (uploadWorker env).trace)) :=
  ⟨uploadWorker_gran, uploadWorker_first_event, uploadWorker_cancel_midpoll⟩

/-- Witness for `c9_cancellation_amended`: a run in which cancellation fires
    mid-poll; the in-flight object 6 is deleted and the worker returns a
    failure marker. -/
theorem c9_cancellation_amended_witness :
    (uploadWorker cancelPollEnv).out = Except.ok none ∧
      (Ev.deleted cancelPollEnv.fileHandle ∈ (uploadWorker cancelPollEnv).trace ∨
        Ev.deleteFailed cancelPollEnv.fileHandle ∈ (uploadWorker cancelPollEnv).trace) :=
  c9_cancellation_amended.2.2 cancelPollEnv (by decide)

/-! ### Quota exhaustion in the per-call retry loop -/

theorem retry_quota_no_retry {α : Type} (att : Nat → Except ApiErr α) (dur : Nat → Nat)
    (t k : Nat) (hk : k ≤ MAX_RETRIES_PER_CALL)
    (hpre : ∀ j < k, att j = Except.error ApiErr.transient)
    (hq : att k = Except.error ApiErr.quota) :
    (gemini_api_call_with_retry none att dur t).out = Except.error PyErr.apiQuota ∧
      (gemini_api_call_with_retry none att dur t).calls = k + 1 := by
  have hk3 : k ≤ 3 := hk
  interval_cases k
  · constructor <;>
      simp [gemini_api_call_with_retry, retryGo, isSetAt, hq]
  · have h0 := hpre 0 (by norm_num)
    constructor <;>
      simp [gemini_api_call_with_retry, retryGo, isSetAt, h0, hq, backoffChunks,
        MAX_RETRIES_PER_CALL, INITIAL_BACKOFF, MAX_BACKOFF]
  · have h0 := hpre 0 (by norm_num)
    have h1 := hpre 1 (by norm_num)
    constructor <;>
      simp [gemini_api_call_with_retry, retryGo, isSetAt, h0, h1, hq, backoffChunks,
        MAX_RETRIES_PER_CALL, INITIAL_BACKOFF, MAX_BACKOFF]
  · have h0 := hpre 0 (by norm_num)
    have h1 := hpre 1 (by norm_num)
    have h2 := hpre 2 (by norm_num)
    constructor <;>
      simp [gemini_api_call_with_retry, retryGo, isSetAt, h0, h1, h2, hq, backoffChunks,
        MAX_RETRIES_PER_CALL, INITIAL_BACKOFF, MAX_BACKOFF]

theorem retry_transient_capped {α : Type} (att : Nat → Except ApiErr α) (dur : Nat → Nat)
    (t : Nat) (h : ∀ j, att j = Except.error ApiErr.transient) :
    (gemini_api_call_with_retry none att dur t).out = Except.error PyErr.apiTransient ∧
      (gemini_api_call_with_retry none att dur t).calls = MAX_RETRIES_PER_CALL + 1 ∧
      sleepDurations (gemini_api_call_with_retry none att dur t).trace =
        [1, 1, 1, 1, 1, 1, 1] := by
  refine ⟨?_, ?_, ?_⟩ <;>
    simp [gemini_api_call_with_retry, retryGo, isSetAt, h 0, h 1, h 2, h 3, backoffChunks,
      sleepDurations, MAX_RETRIES_PER_CALL, INITIAL_BACKOFF, MAX_BACKOFF]

theorem uploadWorker_quota_marker (env : UWEnv) (hca : env.cancelAt = none)
    (hq : env.upAtt 0 = Except.error ApiErr.quota) :
    (uploadWorker env).out = Except.ok none ∧ (uploadWorker env).upCalls = 1 := by
  obtain ⟨ho, hcalls⟩ := retry_quota_no_retry env.upAtt env.upDur 0 0 (by norm_num)
    (fun j hj => absurd hj (by omega)) hq
  unfold gemini_api_call_with_retry at ho hcalls
  unfold uploadWorker
  rcases hc : retryGo env.cancelAt env.upAtt env.upDur
      (MAX_RETRIES_PER_CALL + 1) 0 INITIAL_BACKOFF 0 with ⟨cout, tEnd, ctr, n⟩
  rw [hca] at hc
  rw [hc] at ho hcalls
  simp only at ho hcalls
  subst ho
  have hset : isSetAt env.cancelAt 0 = false := by rw [hca]; rfl
  rw [hca]
  simp only [isSetAt, hc]
  exact ⟨rfl, hcalls⟩

/-- C8 counterexample: a single-image run whose every `upload_file` attempt
    raises ResourceExhausted.  The call wrapper re-raises it without retrying,
    but the worker's catch-all converts it into a generic failure marker
    (`(path, None)`), the phase retry round re-attempts the item — two
    `upload_file` invocations happen in total, so the quota error IS retried
    at the phase-round level — and the run fails with the generic upload-phase
    failure, not with the quota error surfaced verbatim. -/
theorem c8_quota_counterexample :
    (uploadWorker (quotaWEnv 3)).out = Except.ok none ∧
    (uploadWorker (quotaWEnv 3)).upCalls = 1 ∧
    (upload_to_gemini_file_api cexQuotaPhaseEnv ["t/page_00001.png"]).calls = 2 ∧
    (upload_to_gemini_file_api cexQuotaPhaseEnv ["t/page_00001.png"]).out = Except.ok none ∧
    (process_pdf_web runQuotaEnv).completions =
      [(false, CompletionMsg.errorText RunErr.uploadFailed)] := by decide

/-- C8 amended: quota exhaustion is never retried by the per-call backoff
    loop — after `k` transient attempts, a quota error at attempt `k` re-raises
    immediately with exactly `k + 1` invocations — unlike transient errors,
    which are retried with capped doubling backoff (`MAX_RETRIES_PER_CALL + 1`
    attempts; backoff waits of 1, 2, and 4 seconds, each as one-second
    cancellation-checked chunks); however the per-item upload worker catches
    the re-raised quota error like any exception and returns a generic failure
    marker after that single upload attempt, so the quota error neither
    terminates the run by itself nor escapes the worker, and the phase retry
    round re-attempts the item. -/
theorem c8_quota_amended :
    (∀ (α : Type) (att : Nat → Except ApiErr α) (dur : Nat → Nat) (t k : Nat),
      k ≤ MAX_RETRIES_PER_CALL →
      (∀ j < k, att j = Except.error ApiErr.transient) →
      att k = Except.error ApiErr.quota →
      (gemini_api_call_with_retry none att dur t).out = Except.error PyErr.apiQuota ∧
        (gemini_api_call_with_retry none att dur t).calls = k + 1) ∧
    (∀ (α : Type) (att : Nat → Except ApiErr α) (dur : Nat → Nat) (t : Nat),
      (∀ j, att j = Except.error ApiErr.transient) →
      (gemini_api_call_with_retry none att dur t).out = Except.error PyErr.apiTransient ∧
        (gemini_api_call_with_retry none att dur t).calls = MAX_RETRIES_PER_CALL + 1 ∧
        sleepDurations (gemini_api_call_with_retry none att dur t).trace =
          [1, 1, 1, 1, 1, 1, 1]) ∧
    (∀ env : UWEnv, env.cancelAt = none → env.upAtt 0 = Except.error ApiErr.quota →
      (uploadWorker env).out = Except.ok none ∧ (uploadWorker env).upCalls = 1) :=
  ⟨fun _ => retry_quota_no_retry, fun _ => retry_transient_capped,
   uploadWorker_quota_marker⟩

/-- Witness for `c8_quota_amended`: quota on the first attempt stops the
    per-call loop after exactly one invocation. -/
theorem c8_quota_amended_witness :
    (gemini_api_call_with_retry none
        (fun _ => (Except.error ApiErr.quota : Except ApiErr Unit)) (fun _ => 0) 0).out =
      Except.error PyErr.apiQuota ∧
    (gemini_api_call_with_retry none
        (fun _ => (Except.error ApiErr.quota : Except ApiErr Unit)) (fun _ => 0) 0).calls = 0 + 1 :=
  c8_quota_amended.1 Unit (fun _ => Except.error ApiErr.quota) (fun _ => 0) 0 0
    (by norm_num) (fun j hj => absurd hj (by omega)) rfl

/-! ### Generation-phase invariants -/

theorem nodup_append_singleton {l : List Nat} {a : Nat} (h : l.Nodup) (ha : a ∉ l) :
    (l ++ [a]).Nodup := by
  rw [List.nodup_append]
  exact ⟨h, List.nodup_singleton a, by simpa [List.disjoint_singleton] using ha⟩

theorem RInv_requeue {env : GenEnv} {r : Nat} {tasks0 : List GTask} {task task2 : GTask}
    {P : List GTask} {st : GenSt} (h : RInv env r tasks0 (task :: P) st)
    (hidx : task2.originalIdx = task.originalIdx) (hpn : task2.pageNum = task.pageNum) :
    RInv env r tasks0 P ⟨st.buffer, st.failed ++ [task2], st.writes⟩ := by
  have hheadP : task ∈ task :: P := List.mem_cons_self _ _
  have hnotail : task.originalIdx ∉ P.map GTask.originalIdx := by
    have := h.pnodup
    rw [List.map_cons, List.nodup_cons] at this
    exact this.1
  refine ⟨h.blen, h.wnodup, h.wOK, fun tk htk => h.pOK tk (List.mem_cons_of_mem _ htk),
    ?_, fun tk htk => h.pfresh tk (List.mem_cons_of_mem _ htk), ?_, ?_, ?_, ?_, h.bufW, h.bufN⟩
  · have := h.pnodup
    rw [List.map_cons, List.nodup_cons] at this
    exact this.2
  · intro tk htk
    rcases List.mem_append.mp htk with htk | htk
    · exact h.fOK tk htk
    · rw [List.mem_singleton.mp htk]
      obtain ⟨t, ht, h1, h2⟩ := h.pOK task hheadP
      exact ⟨t, ht, by rw [hidx, h1], by rw [hpn, h2]⟩
  · intro tk htk
    rcases List.mem_append.mp htk with htk | htk
    · exact h.ffresh tk htk
    · rw [List.mem_singleton.mp htk, hidx]
      exact h.pfresh task hheadP
  · rw [List.map_append]
    refine nodup_append_singleton h.fnodup ?_
    intro hmem
    obtain ⟨tk, htk, heq⟩ := List.mem_map.mp hmem
    have h3 := h.fnotp tk htk
    rw [List.map_cons] at h3
    exact h3 (by rw [heq, hidx]; exact List.mem_cons_self _ _)
  · intro tk htk
    rcases List.mem_append.mp htk with htk | htk
    · have := h.fnotp tk htk
      rw [List.map_cons] at this
      intro hmem
      exact this (List.mem_cons_of_mem _ hmem)
    · rw [List.mem_singleton.mp htk, hidx]
      exact hnotail

theorem RInv_write {env : GenEnv} {r : Nat} {tasks0 : List GTask} {task : GTask}
    {P : List GTask} {st : GenSt} (c : PageContent)
    (h : RInv env r tasks0 (task :: P) st)
    (hlt : task.originalIdx < st.buffer.length)
    (hsucc : ∃ m, (env.gen task.originalIdx m r).1 = some c.body)
    (hpn : c.page_num_in_doc = task.pageNum) :
    RInv env r tasks0 P ⟨st.buffer.set task.originalIdx (some c), st.failed,
      st.writes ++ [(task.originalIdx, c)]⟩ := by
  have hheadP : task ∈ task :: P := List.mem_cons_self _ _
  have hfresh : task.originalIdx ∉ st.writes.map Prod.fst := h.pfresh task hheadP
  have hnotail : task.originalIdx ∉ P.map GTask.originalIdx := by
    have := h.pnodup
    rw [List.map_cons, List.nodup_cons] at this
    exact this.1
  refine ⟨?_, ?_, ?_, fun tk htk => h.pOK tk (List.mem_cons_of_mem _ htk), ?_, ?_,
    h.fOK, ?_, h.fnodup, ?_, ?_, ?_⟩
  · rw [List.length_set]
    exact h.blen
  · rw [List.map_append]
    exact nodup_append_singleton h.wnodup hfresh
  · intro w hw
    rcases List.mem_append.mp hw with hw | hw
    · exact h.wOK w hw
    · rw [List.mem_singleton.mp hw]
      obtain ⟨m, hm⟩ := hsucc
      obtain ⟨t, ht, h1, h2⟩ := h.pOK task hheadP
      exact ⟨⟨r, m, hm⟩, t, ht, h1, by rw [hpn, h2]⟩
  · have := h.pnodup
    rw [List.map_cons, List.nodup_cons] at this
    exact this.2
  · intro tk htk
    rw [List.map_append]
    intro hmem
    rcases List.mem_append.mp hmem with hmem | hmem
    · exact h.pfresh tk (List.mem_cons_of_mem _ htk) hmem
    · have heq : tk.originalIdx = task.originalIdx := by simpa using hmem
      apply hnotail
      rw [← heq]
      exact List.mem_map_of_mem GTask.originalIdx htk
  · intro tk htk
    rw [List.map_append]
    intro hmem
    rcases List.mem_append.mp hmem with hmem | hmem
    · exact h.ffresh tk htk hmem
    · have heq : tk.originalIdx = task.originalIdx := by simpa using hmem
      have h3 := h.fnotp tk htk
      rw [List.map_cons] at h3
      exact h3 (by rw [heq]; exact List.mem_cons_self _ _)
  · intro tk htk
    have := h.fnotp tk htk
    rw [List.map_cons] at this
    intro hmem
    exact this (List.mem_cons_of_mem _ hmem)
  · intro i c2 hic
    rcases List.mem_append.mp hic with hic | hic
    · have hne : task.originalIdx ≠ i := by
        intro heq
        exact hfresh (heq ▸ List.mem_map_of_mem Prod.fst hic)
      rw [List.getElem?_set_ne hne]
      exact h.bufW i c2 hic
    · have heq := List.mem_singleton.mp hic
      have hi : i = task.originalIdx := congrArg Prod.fst heq
      have hc2 : c2 = c := congrArg Prod.snd heq
      subst hi
      subst hc2
      exact List.getElem?_set_self hlt
  · intro i hi hmem
    rw [List.map_append] at hmem
    have h1 : i ∉ st.writes.map Prod.fst := fun hx => hmem (List.mem_append_left _ hx)
    have h2 : task.originalIdx ≠ i := by
      intro heq
      exact hmem (List.mem_append_right _ (by rw [← heq]; simp))
    rw [List.getElem?_set_ne h2]
    exact h.bufN i hi h1

theorem RInv_step {env : GenEnv} {r : Nat} {tasks0 : List GTask} {task : GTask}
    {P : List GTask} {st : GenSt} (h : RInv env r tasks0 (task :: P) st) :
    RInv env r tasks0 P (genRoundStep env r st task) := by
  unfold genRoundStep handleGenResultWeb
  rcases hgen : env.gen task.originalIdx task.modelToUse r with ⟨body, b64, fr⟩
  have hres : genWorkerResult env r task =
      ⟨task.originalIdx, task.pageNum, body, b64, fr⟩ := by
    unfold genWorkerResult
    rw [hgen]
  rw [hres]
  dsimp only
  cases body with
  | some b =>
    dsimp only
    by_cases hlt : task.originalIdx < st.buffer.length
    · rw [if_pos hlt]
      exact RInv_write ⟨task.pageNum, b, b64⟩ h hlt
        ⟨task.modelToUse, by rw [hgen]⟩ rfl
    · rw [if_neg hlt]
      exact RInv_requeue h rfl rfl
  | none =>
    dsimp only
    by_cases hfr : fr = some FINISH_REASON_MAX_TOKENS
    · rw [if_pos (by simpa using hfr)]
      exact RInv_requeue h rfl rfl
    · rw [if_neg (by simpa using hfr)]
      exact RInv_requeue h rfl rfl

theorem RInv_fold {env : GenEnv} {r : Nat} {tasks0 : List GTask} :
    ∀ (P : List GTask) (st : GenSt), RInv env r tasks0 P st →
      RInv env r tasks0 [] (P.foldl (genRoundStep env r) st) := by
  intro P
  induction P with
  | nil => intro st h; exact h
  | cons task P2 ih =>
    intro st h
    exact ih _ (RInv_step h)

theorem subperm_nodup_of {l1 l2 : List Nat} (h : l1.Subperm l2) (hn : l2.Nodup) :
    l1.Nodup := by
  obtain ⟨l, hperm, hsub⟩ := h
  exact (hperm.nodup_iff).mp (hsub.nodup hn)

theorem subperm_map_idx {l1 l2 : List GTask} (h : l1.Subperm l2) :
    (l1.map GTask.originalIdx).Subperm (l2.map GTask.originalIdx) := by
  obtain ⟨l, hperm, hsub⟩ := h
  exact ⟨l.map GTask.originalIdx, hperm.map _, hsub.map _⟩

theorem PInv_round {env : GenEnv} {tasks0 : List GTask} {r : Nat} {st : GPhaseSt}
    (hs : (env.sched r st.queue).Subperm st.queue) (h : PInv env tasks0 st) :
    PInv env tasks0 (genRoundRun env r st) := by
  unfold genRoundRun
  by_cases hq : st.queue = []
  · rw [if_pos hq]
    exact h
  · rw [if_neg hq]
    have hPmem : ∀ tk ∈ env.sched r st.queue, tk ∈ st.queue := fun tk htk => hs.subset htk
    have hPnodup : ((env.sched r st.queue).map GTask.originalIdx).Nodup :=
      subperm_nodup_of (subperm_map_idx hs) h.qnodup
    have hR : RInv env r tasks0 (env.sched r st.queue) ⟨st.buffer, [], st.writes⟩ :=
      ⟨h.blen, h.wnodup, h.wOK, fun tk htk => h.qOK tk (hPmem tk htk), hPnodup,
       fun tk htk => h.qfresh tk (hPmem tk htk), by simp, by simp, by simp, by simp,
       h.bufW, h.bufN⟩
    have hRes := RInv_fold _ _ hR
    exact ⟨hRes.blen, hRes.wnodup, hRes.wOK, hRes.fOK, hRes.fnodup, hRes.ffresh,
      hRes.bufW, hRes.bufN⟩

theorem genPhase_inv {env : GenEnv} {tasks0 : List GTask}
    (hn : (tasks0.map GTask.originalIdx).Nodup)
    (hs : ∀ (r : Nat) (q : List GTask), (env.sched r q).Subperm q) :
    PInv env tasks0 (genPhase env tasks0) := by
  have h0 : PInv env tasks0 ⟨List.replicate tasks0.length none, tasks0, []⟩ :=
    ⟨by simp, by simp, by simp, fun tk htk => ⟨tk, htk, rfl, rfl⟩, hn, by simp, by simp,
     fun i hi _ => by simp [List.getElem?_replicate, hi]⟩
  have h2 := PInv_round (hs 1 _) (PInv_round (hs 0 _) h0)
  have hEq : genPhase env tasks0 =
      genRoundRun env 1 (genRoundRun env 0 ⟨List.replicate tasks0.length none, tasks0, []⟩) := rfl
  rw [hEq]
  exact h2

/-- Consequences of the phase invariant: writes are uniquely indexed, each
    write stems from a worker success for an original task with that index and
    page number, and the final buffer is populated exactly according to the
    write log. -/
theorem genPhase_writes_spec {env : GenEnv} {tasks0 : List GTask}
    (hn : (tasks0.map GTask.originalIdx).Nodup)
    (hs : ∀ (r : Nat) (q : List GTask), (env.sched r q).Subperm q) :
    ((genPhase env tasks0).writes.map Prod.fst).Nodup ∧
    (∀ w ∈ (genPhase env tasks0).writes,
      (∃ r2 m, (env.gen w.1 m r2).1 = some w.2.body) ∧
        ∃ t ∈ tasks0, t.originalIdx = w.1 ∧ t.pageNum = w.2.page_num_in_doc) ∧
    (∀ i c, (i, c) ∈ (genPhase env tasks0).writes →
      (genPhase env tasks0).buffer[i]? = some (some c)) ∧
    (∀ i c, (genPhase env tasks0).buffer[i]? = some (some c) →
      (i, c) ∈ (genPhase env tasks0).writes) := by
  have h := genPhase_inv hn hs
  refine ⟨h.wnodup, h.wOK, h.bufW, ?_⟩
  intro i c hbuf
  by_cases hi : i < tasks0.length
  · by_cases hw : i ∈ (genPhase env tasks0).writes.map Prod.fst
    · obtain ⟨w, hwmem, hfst⟩ := List.mem_map.mp hw
      rcases w with ⟨i2, c2⟩
      simp only at hfst
      subst hfst
      have := h.bufW i2 c2 hwmem
      rw [this] at hbuf
      have hc : c2 = c := by
        injection hbuf with h1
        injection h1
      rw [← hc]
      exact hwmem
    · have := h.bufN i hi hw
      rw [this] at hbuf
      exact absurd hbuf (by simp)
  · have : (genPhase env tasks0).buffer[i]? = none := by
      rw [List.getElem?_eq_none]
      rw [h.blen]
      omega
    rw [this] at hbuf
    exact absurd hbuf (by simp)

theorem handleGenResultWeb_ignores_echo (st : GenSt) (task : GTask) (res : GResult) (j : Nat) :
    handleGenResultWeb st task res =
      handleGenResultWeb st task ⟨j, res.pageNum, res.body, res.b64, res.finishReason⟩ := by
  cases res
  rfl

theorem handleGenResultWeb_write_location (st : GenSt) (task : GTask) (res : GResult) :
    (handleGenResultWeb st task res).writes = st.writes ∨
      ∃ c, (handleGenResultWeb st task res).writes = st.writes ++ [(task.originalIdx, c)] := by
  unfold handleGenResultWeb
  cases hb : res.body with
  | some b =>
    dsimp only
    by_cases hlt : task.originalIdx < st.buffer.length
    · rw [if_pos hlt]
      exact Or.inr ⟨⟨res.pageNum, b, res.b64⟩, rfl⟩
    · rw [if_neg hlt]
      exact Or.inl rfl
  | none =>
    dsimp only
    by_cases hfr : res.finishReason = some FINISH_REASON_MAX_TOKENS
    · rw [if_pos hfr]
      exact Or.inl rfl
    · rw [if_neg hfr]
      exact Or.inl rfl

theorem handleGenResultDesk_spec (buffer : List (Option PageContent)) (failed : List GTask)
    (task : GTask) (res : GResult) :
    ((handleGenResultDesk buffer failed task res).2.2 = true ↔
      res.returnedIdx ≠ task.originalIdx) ∧
    ((handleGenResultDesk buffer failed task res).1 = buffer ∨
      ∃ c, (handleGenResultDesk buffer failed task res).1 =
        buffer.set task.originalIdx (some c)) := by
  unfold handleGenResultDesk
  cases hb : res.body with
  | some b =>
    dsimp only
    by_cases hlt : task.originalIdx < buffer.length
    · rw [if_pos hlt]
      exact ⟨by simp, Or.inr ⟨⟨res.pageNum, b, res.b64⟩, rfl⟩⟩
    · rw [if_neg hlt]
      exact ⟨by simp, Or.inl rfl⟩
  | none =>
    dsimp only
    exact ⟨by simp, Or.inl rfl⟩

/-- C1: every write of a generation result lands in the buffer slot addressed
    by the coordinator-tracked order index: the web coordinator never consults
    the index echoed back by the worker result (its handling is invariant under
    changing the echoed index, and any write it makes is at the tracked index);
    the desktop coordinator logs the index alert exactly on a mismatch and even
    then writes only at the tracked index; and across a whole phase run — for
    any completion order and any early truncation of each round — every buffer
    slot is written at most once, only with content produced by a successful
    worker outcome for the original task carrying that order index, and the
    final buffer is populated exactly according to that write log. -/
theorem c1_order_index_reassembly :
    (∀ (st : GenSt) (task : GTask) (res : GResult) (j : Nat),
      handleGenResultWeb st task res =
        handleGenResultWeb st task ⟨j, res.pageNum, res.body, res.b64, res.finishReason⟩) ∧
    (∀ (st : GenSt) (task : GTask) (res : GResult),
      (handleGenResultWeb st task res).writes = st.writes ∨
        ∃ c, (handleGenResultWeb st task res).writes = st.writes ++ [(task.originalIdx, c)]) ∧
    (∀ (buffer : List (Option PageContent)) (failed : List GTask) (task : GTask) (res : GResult),
      ((handleGenResultDesk buffer failed task res).2.2 = true ↔
        res.returnedIdx ≠ task.originalIdx) ∧
      ((handleGenResultDesk buffer failed task res).1 = buffer ∨
        ∃ c, (handleGenResultDesk buffer failed task res).1 =
          buffer.set task.originalIdx (some c))) ∧
    (∀ (env : GenEnv) (tasks0 : List GTask),
      (tasks0.map GTask.originalIdx).Nodup →
      (∀ (r : Nat) (q : List GTask), (env.sched r q).Subperm q) →
      ((genPhase env tasks0).writes.map Prod.fst).Nodup ∧
      (∀ w ∈ (genPhase env tasks0).writes,
        (∃ r2 m, (env.gen w.1 m r2).1 = some w.2.body) ∧
          ∃ t ∈ tasks0, t.originalIdx = w.1 ∧ t.pageNum = w.2.page_num_in_doc) ∧
      (∀ i c, (i, c) ∈ (genPhase env tasks0).writes →
        (genPhase env tasks0).buffer[i]? = some (some c)) ∧
      (∀ i c, (genPhase env tasks0).buffer[i]? = some (some c) →
        (i, c) ∈ (genPhase env tasks0).writes)) :=
  ⟨handleGenResultWeb_ignores_echo, handleGenResultWeb_write_location,
   handleGenResultDesk_spec, fun _ _ hn hs => genPhase_writes_spec hn hs⟩

/-- Witness for `c1_order_index_reassembly` on the concrete 3-task phase run
    with a permanently failing middle page. -/
theorem c1_order_index_reassembly_witness :
    ((genPhase genMidFail tasks3).writes.map Prod.fst).Nodup ∧
    (∀ w ∈ (genPhase genMidFail tasks3).writes,
      (∃ r2 m, (genMidFail.gen w.1 m r2).1 = some w.2.body) ∧
        ∃ t ∈ tasks3, t.originalIdx = w.1 ∧ t.pageNum = w.2.page_num_in_doc) ∧
    (∀ i c, (i, c) ∈ (genPhase genMidFail tasks3).writes →
      (genPhase genMidFail tasks3).buffer[i]? = some (some c)) ∧
    (∀ i c, (genPhase genMidFail tasks3).buffer[i]? = some (some c) →
      (i, c) ∈ (genPhase genMidFail tasks3).writes) :=
  c1_order_index_reassembly.2.2.2 genMidFail tasks3 (by decide)
    (fun _ q => List.Subperm.refl q)

/-- C5 counterexample: the claim says a MAX_TOKENS failure is requeued with an
    escalated profile "instead of retrying it unchanged" — but when the task
    already runs on the escalation model (which is a user-selectable entry of
    AVAILABLE_GEMINI_MODELS), the requeued task is identical to the failed one:
    same model, same generation config, retried unchanged. -/
theorem c5_truncation_escalation_counterexample :
    MODELO_ESCALONAMENTO ∈ AVAILABLE_GEMINI_MODELS ∧
    (handleGenResultWeb ⟨[none], [], []⟩ ⟨0, 1, MODELO_ESCALONAMENTO⟩
        ⟨0, 1, none, none, some FINISH_REASON_MAX_TOKENS⟩).failed =
      [⟨0, 1, MODELO_ESCALONAMENTO⟩] ∧
    generation_config_for MODELO_ESCALONAMENTO = generation_config_for MODELO_ESCALONAMENTO := by
  decide

/-- C5 (amended): a task failing with finish reason MAX_TOKENS is requeued with
    its model replaced by MODELO_ESCALONAMENTO (same order index and page
    number, buffer and write log untouched); a task failing for any other
    reason is requeued verbatim; the escalation model carries the enlarged
    65536-token output allowance while every other model has no explicit
    allowance; and in a concrete run the escalated retry's content lands at the
    task's original order index. -/
theorem c5_truncation_escalation_amended :
    (∀ (st : GenSt) (task : GTask) (res : GResult),
      res.body = none → res.finishReason = some FINISH_REASON_MAX_TOKENS →
      (handleGenResultWeb st task res).failed =
        st.failed ++ [⟨task.originalIdx, task.pageNum, MODELO_ESCALONAMENTO⟩] ∧
      (handleGenResultWeb st task res).buffer = st.buffer ∧
      (handleGenResultWeb st task res).writes = st.writes) ∧
    (∀ (st : GenSt) (task : GTask) (res : GResult),
      res.body = none → res.finishReason ≠ some FINISH_REASON_MAX_TOKENS →
      handleGenResultWeb st task res = ⟨st.buffer, st.failed ++ [task], st.writes⟩) ∧
    generation_config_for MODELO_ESCALONAMENTO = ⟨1, some LIMITE_TOKENS_ESCALONAMENTO⟩ ∧
    (∀ m, m ≠ MODELO_ESCALONAMENTO → generation_config_for m = ⟨1, none⟩) ∧
    (genPhase genEscEnv tasks3).buffer[1]? = some (some ⟨2, "<p>esc</p>", none⟩) := by
  refine ⟨?_, ?_, ?_, ?_, ?_⟩
  · intro st task res hb hfr
    unfold handleGenResultWeb
    rw [hb]
    dsimp only
    rw [if_pos hfr]
    exact ⟨rfl, rfl, rfl⟩
  · intro st task res hb hfr
    unfold handleGenResultWeb
    rw [hb]
    dsimp only
    rw [if_neg hfr]
  · rfl
  · intro m hm
    unfold generation_config_for
    rw [if_neg hm]
  · decide

/-- Witness for `c5_truncation_escalation_amended` at concrete handler inputs:
    a MAX_TOKENS failure of the default-model task (1, 2) is requeued on the
    escalation model, an OTHER failure is requeued verbatim, and the default
    model has no explicit output allowance. -/
theorem c5_truncation_escalation_amended_witness :
    (handleGenResultWeb ⟨[none, none], [], []⟩ ⟨1, 2, DEFAULT_GEMINI_MODEL⟩
        ⟨1, 2, none, none, some FINISH_REASON_MAX_TOKENS⟩).failed =
      [⟨1, 2, MODELO_ESCALONAMENTO⟩] ∧
    handleGenResultWeb ⟨[none, none], [], []⟩ ⟨1, 2, DEFAULT_GEMINI_MODEL⟩
        ⟨1, 2, none, none, some "OTHER"⟩ =
      ⟨[none, none], [⟨1, 2, DEFAULT_GEMINI_MODEL⟩], []⟩ ∧
    generation_config_for DEFAULT_GEMINI_MODEL = ⟨1, none⟩ :=
  ⟨(c5_truncation_escalation_amended.1 ⟨[none, none], [], []⟩ ⟨1, 2, DEFAULT_GEMINI_MODEL⟩
      ⟨1, 2, none, none, some FINISH_REASON_MAX_TOKENS⟩ rfl rfl).1,
   c5_truncation_escalation_amended.2.1 ⟨[none, none], [], []⟩ ⟨1, 2, DEFAULT_GEMINI_MODEL⟩
     ⟨1, 2, none, none, some "OTHER"⟩ rfl (by decide),
   c5_truncation_escalation_amended.2.2.2.1 DEFAULT_GEMINI_MODEL (by decide)⟩

set_option maxRecDepth 8192 in
/-- C6 counterexample: on the 3-page run whose middle page permanently fails,
    the web pipeline filters the unpopulated slot out of the content list
    before assembly, so the merged articles cover only pages 1 and 3 and the
    placeholder text appears nowhere in the assembled output — the failed page
    is silently omitted, not rendered as an in-position placeholder. -/
theorem c6_placeholder_counterexample :
    tasks3.length = 3 ∧
    (genPhase genMidFail tasks3).buffer.map Option.isSome = [true, false, true] ∧
    ((genPhase genMidFail tasks3).buffer.filterMap id).map PageContent.page_num_in_doc
      = [1, 3] ∧
    (mergedArticles ((genPhase genMidFail tasks3).buffer.filterMap id)).length = 2 ∧
    containsSub "não pôde ser extraído".toList
      (String.join (mergedArticles
        ((genPhase genMidFail tasks3).buffer.filterMap id))).toList = false := by
  decide

/-- C6 (amended): the assembler renders exactly one article per entry of the
    content list it receives, in list order, prefixing every article except the
    first with the page separator; an entry that is present but has an empty
    body is rendered with the explicit in-position placeholder; an empty
    content list aborts the merge and a nonempty one always yields a document.
    But unpopulated buffer slots never reach the assembler: the pipeline keeps
    exactly the populated slots, so a permanently failed page is silently
    omitted from the output. -/
theorem c6_assembler_amended :
    (∀ (cl : List PageContent) (i : Nat) (s : String),
      (mergedArticles cl)[i]? = some s →
      ∃ cd, cl[i]? = some cd ∧ s = pageArticle (decide (i = 0)) cd) ∧
    (∀ cl : List PageContent, (mergedArticles cl).length = cl.length) ∧
    (∀ cd : PageContent, ∃ r, pageArticle false cd = PAGE_SEPARATOR ++ r) ∧
    (∀ (first : Bool) (cd : PageContent), cd.body = "" →
      ∃ x y, pageArticle first cd = x ++ placeholderFor cd.page_num_in_doc ++ y) ∧
    (∀ t : String, create_merged_html [] t = none) ∧
    (∀ (cl : List PageContent) (t : String), cl ≠ [] →
      create_merged_html cl t =
        some (mergedPreamble t ++ String.join (mergedArticles cl) ++ MERGED_CLOSE)) ∧
    (∀ (buf : List (Option PageContent)) (c : PageContent),
      c ∈ buf.filterMap id ↔ some c ∈ buf) := by
  refine ⟨?_, ?_, ?_, ?_, ?_, ?_, ?_⟩
  · intro cl i s h
    simp only [mergedArticles, List.getElem?_map, List.getElem?_enum] at h
    cases hc : cl[i]? with
    | none => rw [hc] at h; simp at h
    | some cd =>
      rw [hc] at h
      simp only [Option.map_some'] at h
      exact ⟨cd, rfl, (Option.some.inj h).symm⟩
  · intro cl
    simp [mergedArticles]
  · intro cd
    unfold pageArticle
    rw [if_neg (Bool.false_ne_true)]
    simp only [String.append_assoc]
    exact ⟨_, rfl⟩
  · intro first cd hb
    unfold pageArticle
    rw [hb]
    simp only [ne_eq, not_true_eq_false, false_and, if_false]
    exact ⟨_, _, String.append_assoc _ _ _⟩
  · intro t
    rfl
  · intro cl t hne
    unfold create_merged_html
    rw [if_neg hne]
  · intro buf c
    simp [List.mem_filterMap]

set_option maxRecDepth 8192 in
/-- Witness for `c6_assembler_amended` on a concrete two-entry content list
    whose second entry has an empty body. -/
theorem c6_assembler_amended_witness :
    (∃ cd, ([(⟨1, "<p>a</p>", none⟩ : PageContent), ⟨2, "", none⟩])[1]? = some cd ∧
      pageArticle false ⟨2, "", none⟩ = pageArticle (decide (1 = 0)) cd) ∧
    (∃ x y, pageArticle false (⟨2, "", none⟩ : PageContent) =
      x ++ placeholderFor 2 ++ y) ∧
    create_merged_html [⟨1, "<p>a</p>", none⟩, ⟨2, "", none⟩] "doc" =
      some (mergedPreamble "doc" ++
        String.join (mergedArticles [⟨1, "<p>a</p>", none⟩, ⟨2, "", none⟩]) ++ MERGED_CLOSE) :=
  ⟨c6_assembler_amended.1 [⟨1, "<p>a</p>", none⟩, ⟨2, "", none⟩] 1
      (pageArticle false ⟨2, "", none⟩) (by decide),
   c6_assembler_amended.2.2.2.1 false ⟨2, "", none⟩ rfl,
   c6_assembler_amended.2.2.2.2.2.1 [⟨1, "<p>a</p>", none⟩, ⟨2, "", none⟩] "doc"
     (by decide)⟩

theorem run_shape (env : RunEnv) :
    ∃ (c : Bool × CompletionMsg) (w m : Bool) (evs : List Ev)
      (mapv : List (String × Nat)),
      process_pdf_web env = runExit env c w m evs mapv ∧
      (c.1 = true → c.2 = CompletionMsg.locator env.outputPathBase ∧ m = true) ∧
      (c.1 = false → ∃ e, c.2 = CompletionMsg.errorText e) := by
  unfold process_pdf_web
  cases hkey : env.apiKeyPresent with
  | false => exact ⟨_, _, _, _, _, rfl, fun h => Bool.noConfusion h, fun _ => ⟨_, rfl⟩⟩
  | true =>
    cases h2 : parse_page_ranges env.pageRangeStr env.totalDocPages with
    | none => exact ⟨_, _, _, _, _, rfl, fun h => Bool.noConfusion h, fun _ => ⟨_, rfl⟩⟩
    | some selected =>
      try dsimp only
      cases h3 : env.rasterOutcome with
      | error e =>
        cases e
        all_goals exact ⟨_, _, _, _, _, rfl, fun h => Bool.noConfusion h, fun _ => ⟨_, rfl⟩⟩
      | ok u =>
        cases u
        try dsimp only
        cases h4 : List.map (imagePathFor env.tempDir) selected with
        | nil => exact ⟨_, _, _, _, _, rfl, fun h => Bool.noConfusion h, fun _ => ⟨_, rfl⟩⟩
        | cons p ps =>
          cases h5 : env.cancelAfterConvert with
          | true => exact ⟨_, _, _, _, _, rfl, fun h => Bool.noConfusion h, fun _ => ⟨_, rfl⟩⟩
          | false =>
            cases h6 : upload_to_gemini_file_api env.uenv (p :: ps) with
            | mk out evs2 k =>
              try dsimp only
              cases out with
              | error pe =>
                exact ⟨_, _, _, _, _, rfl, fun h => Bool.noConfusion h, fun _ => ⟨_, rfl⟩⟩
              | ok o =>
                try dsimp only
                cases o with
                | none =>
                  exact ⟨_, _, _, _, _, rfl, fun h => Bool.noConfusion h, fun _ => ⟨_, rfl⟩⟩
                | some mv =>
                  try dsimp only
                  cases mv with
                  | nil =>
                    exact ⟨_, _, _, _, _, rfl, fun h => Bool.noConfusion h, fun _ => ⟨_, rfl⟩⟩
                  | cons e0 es =>
                    try dsimp only
                    cases h8 : env.cancelAfterUpload with
                    | true =>
                      exact ⟨_, _, _, _, _, rfl, fun h => Bool.noConfusion h, fun _ => ⟨_, rfl⟩⟩
                    | false =>
                      cases h9 : env.cancelAfterGen with
                      | true =>
                        exact ⟨_, _, _, _, _, rfl, fun h => Bool.noConfusion h, fun _ => ⟨_, rfl⟩⟩
                      | false =>
                        try dsimp only
                        cases h10 : List.filterMap id (genPhase env.genv
                            (mkGenTasks env.selectedModel
                              (sortPathsByPage (List.map Prod.fst (e0 :: es))))).buffer with
                        | nil =>
                          exact ⟨_, _, _, _, _, rfl, fun h => Bool.noConfusion h,
                            fun _ => ⟨_, rfl⟩⟩
                        | cons c0 cs =>
                          cases h11 : create_merged_html (c0 :: cs) env.pdfBase with
                          | none =>
                            exact ⟨_, _, _, _, _, rfl, fun h => Bool.noConfusion h,
                              fun _ => ⟨_, rfl⟩⟩
                          | some doc =>
                            cases h12 : env.mergeWriteOk with
                            | false =>
                              exact ⟨_, _, _, _, _, rfl, fun h => Bool.noConfusion h,
                                fun _ => ⟨_, rfl⟩⟩
                            | true =>
                              exact ⟨_, _, _, _, _, rfl, fun _ => ⟨rfl, rfl⟩,
                                fun h => Bool.noConfusion h⟩

theorem deleteAttemptsOf_cleanupDeletes (f : Nat → Bool) (m : List (String × Nat)) :
    deleteAttemptsOf (cleanupDeletes f m) = m.map Prod.snd := by
  induction m with
  | nil => rfl
  | cons a t ih =>
    by_cases h : f a.2 = true
    · simp only [cleanupDeletes, List.map_cons, deleteAttemptsOf, List.filterMap_cons,
        if_pos h] at *
      exact congrArg (a.2 :: ·) ih
    · simp only [cleanupDeletes, List.map_cons, deleteAttemptsOf, List.filterMap_cons,
        if_neg h] at *
      exact congrArg (a.2 :: ·) ih

/-- C7 counterexample: the 3-page run in which the middle page permanently
    fails (a strictly partial success: the partial warning fires) completes
    with exactly the same success locator as the fully successful run — the web
    pipeline never renames a partial output, so a partial result is
    indistinguishable from a complete one by its locator. -/
theorem c7_partial_naming_counterexample :
    (process_pdf_web runPartialEnv).warnedPartial = true ∧
    (process_pdf_web runFullEnv).warnedPartial = false ∧
    (process_pdf_web runPartialEnv).completions =
      [(true, CompletionMsg.locator "out.html")] ∧
    (process_pdf_web runFullEnv).completions =
      [(true, CompletionMsg.locator "out.html")] := by
  decide

/-- C7 (amended): a strictly partial web run is flagged by the partial warning
    status but every successful completion — partial or complete — carries the
    same `output_path` locator (no renaming, merge was reached); when zero
    pages succeed the run fails with the no-content error and merge is skipped.
    Only the desktop variant renames partial outputs, inserting
    `_parcial_accessible` into the file stem and appending ` (Parcial)` to the
    document title. -/
theorem c7_partial_naming_amended :
    (process_pdf_web runPartialEnv).warnedPartial = true ∧
    (∀ (env : RunEnv) (b : Bool) (msg : CompletionMsg),
      (b, msg) ∈ (process_pdf_web env).completions → b = true →
      msg = CompletionMsg.locator env.outputPathBase ∧
      (process_pdf_web env).mergeCalled = true) ∧
    (process_pdf_web (runWithGen genAllFail)).completions =
      [(false, CompletionMsg.errorText RunErr.genNoContent)] ∧
    (process_pdf_web (runWithGen genAllFail)).mergeCalled = false ∧
    desktop_partial_output_path "out/doc_accessible.html" =
      "out/doc_parcial_accessible.html" ∧
    desktop_partial_title "doc" = "doc (Parcial)" := by
  refine ⟨by decide, ?_, by decide, by decide, by decide, rfl⟩
  intro env b msg hmem hb
  obtain ⟨c, w, m, evs, mapv, heq, hs, _⟩ := run_shape env
  rw [heq] at hmem ⊢
  have hc : (b, msg) = c := List.mem_singleton.mp hmem
  obtain ⟨hloc, hm⟩ := hs (by rw [← hc]; exact hb)
  refine ⟨?_, ?_⟩
  · have := congrArg Prod.snd hc
    simp only at this
    rw [this, hloc]
  · exact hm

/-- Witness for `c7_partial_naming_amended` at the fully successful run. -/
theorem c7_partial_naming_amended_witness :
    CompletionMsg.locator "out.html" = CompletionMsg.locator runFullEnv.outputPathBase ∧
    (process_pdf_web runFullEnv).mergeCalled = true :=
  c7_partial_naming_amended.2.1 runFullEnv true (CompletionMsg.locator "out.html")
    (by decide) rfl

/-- C2 counterexample: in the run whose upload worker creates a remote file
    (handles 10 and 11, one per retry round) and then fails mid-poll, the
    created handles never enter the success map, so neither the phase nor the
    finally-block cleanup ever attempts to delete them — remote handles created
    during the run leak, contradicting "deletes every remote handle created
    during the run exactly once". -/
theorem c2_cleanup_counterexample :
    createdOf (process_pdf_web runLeakEnv).phaseEvs = [10, 11] ∧
    deleteAttemptsOf ((process_pdf_web runLeakEnv).phaseEvs ++
      (process_pdf_web runLeakEnv).cleanupEvs) = [] ∧
    (process_pdf_web runLeakEnv).completions.length = 1 := by
  decide

/-- C2 (amended): the finally-block cleanup runs on every exit path and
    attempts exactly one best-effort deletion per entry of the final uploaded
    map — an individual deletion failure is swallowed and does not abort the
    loop (every later entry is still attempted, whatever the per-handle
    outcomes).  Handles created by workers that failed before returning
    (e.g. mid-poll) are absent from that map and are never deleted. -/
theorem c2_cleanup_amended :
    (∀ env : RunEnv, (process_pdf_web env).cleanupRan = true ∧
      ∃ mapv, (process_pdf_web env).cleanupEvs = cleanupDeletes env.cleanupDelOk mapv ∧
        deleteAttemptsOf (process_pdf_web env).cleanupEvs = mapv.map Prod.snd) ∧
    (∀ (f : Nat → Bool) (m : List (String × Nat)),
      deleteAttemptsOf (cleanupDeletes f m) = m.map Prod.snd) := by
  refine ⟨?_, deleteAttemptsOf_cleanupDeletes⟩
  intro env
  obtain ⟨c, w, m, evs, mapv, heq, _, _⟩ := run_shape env
  rw [heq]
  exact ⟨rfl, mapv, rfl, deleteAttemptsOf_cleanupDeletes env.cleanupDelOk mapv⟩

/-- C10: the pipeline entry point never propagates an exception: on every
    input it invokes the completion sink exactly once — with the artifact
    locator on success and with an error text on failure — and the
    finally-block cleanup always runs. -/
theorem c10_no_exception_single_completion :
    ∀ env : RunEnv,
      (process_pdf_web env).completions.length = 1 ∧
      (process_pdf_web env).cleanupRan = true ∧
      ∀ (b : Bool) (msg : CompletionMsg), (b, msg) ∈ (process_pdf_web env).completions →
        (b = true → msg = CompletionMsg.locator env.outputPathBase) ∧
        (b = false → ∃ e, msg = CompletionMsg.errorText e) := by
  intro env
  obtain ⟨c, w, m, evs, mapv, heq, hs, he⟩ := run_shape env
  rw [heq]
  refine ⟨rfl, rfl, ?_⟩
  intro b msg hmem
  have hc : (b, msg) = c := List.mem_singleton.mp hmem
  constructor
  · intro hb
    have := (hs (by rw [← hc]; exact hb)).1
    have h2 := congrArg Prod.snd hc
    simp only at h2
    rw [h2, this]
  · intro hb
    obtain ⟨e, hce⟩ := he (by rw [← hc]; exact hb)
    have h2 := congrArg Prod.snd hc
    simp only at h2
    exact ⟨e, by rw [h2, hce]⟩

/-- Witness for `c10_no_exception_single_completion` at the quota-failure
    run. -/
theorem c10_no_exception_single_completion_witness :
    (process_pdf_web runQuotaEnv).completions.length = 1 ∧
    (process_pdf_web runQuotaEnv).cleanupRan = true ∧
    (false = true →
      CompletionMsg.errorText RunErr.uploadFailed =
        CompletionMsg.locator runQuotaEnv.outputPathBase) ∧
    (false = false →
      ∃ e, CompletionMsg.errorText RunErr.uploadFailed = CompletionMsg.errorText e) :=
  ⟨(c10_no_exception_single_completion runQuotaEnv).1,
   (c10_no_exception_single_completion runQuotaEnv).2.1,
   ((c10_no_exception_single_completion runQuotaEnv).2.2 false
     (CompletionMsg.errorText RunErr.uploadFailed) (by decide)).1,
   ((c10_no_exception_single_completion runQuotaEnv).2.2 false
     (CompletionMsg.errorText RunErr.uploadFailed) (by decide)).2⟩

/-- C4: a phase is fatal exactly on zero survivors with at least one item
    attempted.  Upload: with no final cancellation pending, the phase returns
    the failure marker (`ok none`, raising the generic upload failure) iff the
    final success map is empty although at least one path was attempted, and a
    returned success map is the final map and is nonempty whenever anything was
    attempted — so any smaller number of item failures does not make the phase
    raise.  Generation: in the standard 3-page scaffold with an arbitrary
    generation environment, the run fails with the no-content error iff the
    final result buffer has zero populated slots. -/
theorem c4_fatal_iff_zero_survivors :
    (∀ (env : UPhaseEnv) (paths : List String), env.cancelFinal = false →
      ((upload_to_gemini_file_api env paths).out = Except.ok none ↔
        finalUploadMap env paths = [] ∧ 0 < paths.length)) ∧
    (∀ (env : UPhaseEnv) (paths : List String) (m : List (String × Nat)),
      (upload_to_gemini_file_api env paths).out = Except.ok (some m) →
      m = finalUploadMap env paths ∧ (0 < paths.length → m ≠ [])) ∧
    (∀ g : GenEnv,
      (process_pdf_web (runWithGen g)).completions =
          [(false, CompletionMsg.errorText RunErr.genNoContent)] ↔
        List.filterMap id (genPhase g tasks3).buffer = []) := by
  refine ⟨?_, ?_, ?_⟩
  · intro env paths hcf
    unfold upload_to_gemini_file_api finalUploadMap
    try dsimp only
    rw [if_neg (show ¬(env.cancelFinal = true) from fun hh =>
      Bool.noConfusion (hcf ▸ hh))]
    by_cases hsz : ((List.range (PHASE_MAX_RETRIES + 1)).foldl
        (fun st r => uploadRound env r st) ⟨[], paths, [], 0⟩).map = [] ∧ 0 < paths.length
    · rw [if_pos hsz]
      exact ⟨fun _ => hsz, fun _ => rfl⟩
    · rw [if_neg hsz]
      exact ⟨fun h => Option.noConfusion (Except.ok.inj h), fun h => absurd h hsz⟩
  · intro env paths m h
    unfold upload_to_gemini_file_api at h
    try dsimp only at h
    unfold finalUploadMap
    cases hcf : env.cancelFinal with
    | true =>
      rw [hcf, if_pos rfl] at h
      exact Except.noConfusion h
    | false =>
      rw [hcf, if_neg (show ¬((false : Bool) = true) from fun hh => Bool.noConfusion hh)] at h
      by_cases hsz : ((List.range (PHASE_MAX_RETRIES + 1)).foldl
          (fun st r => uploadRound env r st) ⟨[], paths, [], 0⟩).map = [] ∧ 0 < paths.length
      · rw [if_pos hsz] at h
        exact Option.noConfusion (Except.ok.inj h)
      · rw [if_neg hsz] at h
        have hm := Option.some.inj (Except.ok.inj h)
        refine ⟨hm.symm, ?_⟩
        intro hlen hmnil
        exact hsz ⟨hm.trans hmnil, hlen⟩
  · intro g
    unfold process_pdf_web
    dsimp only [runWithGen]
    rw [if_neg (show ¬(¬((true : Bool) = true)) from not_not_intro rfl)]
    rw [show parse_page_ranges "" 3 = some [0, 1, 2] from by decide]
    dsimp only
    rw [if_neg (show ¬(List.map (imagePathFor "t") [0, 1, 2] = []) from by decide)]
    rw [if_neg (show ¬((false : Bool) = true) from fun hh => Bool.noConfusion hh)]
    cases hu : upload_to_gemini_file_api okPhaseEnv (List.map (imagePathFor "t") [0, 1, 2]) with
    | mk out evs2 k =>
      have hout : out = Except.ok (some [("t/page_00001.png", 1), ("t/page_00002.png", 2),
          ("t/page_00003.png", 3)]) := by
        have h2 := congrArg UPhaseOut.out hu
        dsimp only at h2
        rw [← h2]
        decide
      subst hout
      try dsimp only
      rw [if_neg (show ¬([("t/page_00001.png", 1), ("t/page_00002.png", 2),
        ("t/page_00003.png", 3)] = ([] : List (String × Nat))) from by decide)]
      rw [if_neg (show ¬((false : Bool) = true) from fun hh => Bool.noConfusion hh)]
      rw [show mkGenTasks DEFAULT_GEMINI_MODEL (sortPathsByPage (List.map Prod.fst
        [("t/page_00001.png", 1), ("t/page_00002.png", 2), ("t/page_00003.png", 3)])) = tasks3
        from by decide]
      try dsimp only
      rw [if_neg (show ¬((false : Bool) = true) from fun hh => Bool.noConfusion hh)]
      by_cases hc : List.filterMap id (genPhase g tasks3).buffer = []
      · rw [if_pos hc]
        exact ⟨fun _ => hc, fun _ => rfl⟩
      · rw [if_neg hc]
        unfold create_merged_html
        rw [if_neg hc]
        dsimp only
        rw [if_neg (show ¬(¬((true : Bool) = true)) from not_not_intro rfl)]
        exact ⟨fun h => Bool.noConfusion (congrArg Prod.fst (List.cons.inj h).1),
          fun h => absurd h hc⟩

/-- Witness for `c4_fatal_iff_zero_survivors`: the upload iff at the
    quota-exhausted single-path phase, the success-map equation at the
    all-successful 3-page phase, and the generation iff at the all-failing
    generation environment. -/
theorem c4_fatal_iff_zero_survivors_witness :
    ((upload_to_gemini_file_api cexQuotaPhaseEnv ["p"]).out = Except.ok none ↔
      finalUploadMap cexQuotaPhaseEnv ["p"] = [] ∧ 0 < (["p"] : List String).length) ∧
    ([("t/page_00001.png", 1), ("t/page_00002.png", 2), ("t/page_00003.png", 3)] =
        finalUploadMap okPhaseEnv (List.map (imagePathFor "t") [0, 1, 2]) ∧
      (0 < (List.map (imagePathFor "t") [0, 1, 2]).length →
        [("t/page_00001.png", 1), ("t/page_00002.png", 2), ("t/page_00003.png", 3)] ≠
          ([] : List (String × Nat)))) ∧
    ((process_pdf_web (runWithGen genAllFail)).completions =
        [(false, CompletionMsg.errorText RunErr.genNoContent)] ↔
      List.filterMap id (genPhase genAllFail tasks3).buffer = []) :=
  ⟨c4_fatal_iff_zero_survivors.1 cexQuotaPhaseEnv ["p"] rfl,
   c4_fatal_iff_zero_survivors.2.1 okPhaseEnv (List.map (imagePathFor "t") [0, 1, 2])
     [("t/page_00001.png", 1), ("t/page_00002.png", 2), ("t/page_00003.png", 3)] (by decide),
   c4_fatal_iff_zero_survivors.2.2 genAllFail⟩

end EF
